import Mathlib

/-!
Shallow embedding of the raycasting/AI core of the BARHUG0/game_of_life
repository (a Wolfenstein-style maze renderer written in Rust), together with
proofs of the specification claims.

Modelling conventions:
* Rust `f32` values are modelled as exact rationals (`ℚ`).  The transcendental
  library calls (`cos`, `sin`, `atan2`, `sqrt`) have no exact rational
  counterpart, so wherever the source calls one of them the embedding takes the
  returned value (or the function itself) as an explicit parameter; all claims
  are settled for arbitrary values of these parameters unless a claim pins one
  down, in which case a hypothesis states the property of the real function
  that is used (for example that `atan2` ranges over `(-pi, pi]`).
* Rust float-to-integer `as` casts truncate toward zero, saturating below at 0
  for unsigned targets; `rat_trunc` / `rat_to_usize` model this.
* The maze is `List (List Char)`; Rust's panicking index `maze[y][x]` is
  modelled by total access with an explicit default cell character.  Claims
  about the absence of out-of-bounds indexing are stated as independence of
  the result from that default.
-/

set_option allowUnsafeReducibility true in
attribute [semireducible] Rat.mul Rat.inv Rat.add Rat.sub Rat.ofScientific

namespace Wolf

/-- Truncation toward zero, the semantics of Rust `as i32` on an `f32`. -/
def rat_trunc (q : ℚ) : ℤ :=
  if 0 ≤ q then ⌊q⌋ else -⌊-q⌋

/-- Semantics of Rust `as usize` on an `f32`: truncate toward zero and
saturate below at `0`. -/
def rat_to_usize (q : ℚ) : ℕ :=
  (rat_trunc q).toNat

/-- Exact rational value of `std::f32::consts::PI`. -/
def pi32 : ℚ := 13176795 / 4194304

/-- Exact rational value of `f32::MAX`. -/
def f32_max : ℚ := 2 ^ 128 - 2 ^ 104

/-- Maze grid exactly as in `maze.rs`: `pub type Maze = Vec<Vec<char>>`. -/
abbrev Maze := List (List Char)

/-- Number of rows, `maze.len()`. -/
def Maze.len (m : Maze) : ℕ := List.length m

/-- Row 0 length, `maze[0].len()` (the source always guards `maze.len()`
before evaluating it). -/
def Maze.width (m : Maze) : ℕ := (List.headD m []).length

/-- Total cell access standing for Rust `maze[y][x]`: the default `dflt` is
returned exactly where Rust would panic on an out-of-bounds index. -/
def Maze.cellD (m : Maze) (dflt : Char) (y x : ℕ) : Char :=
  ((List.getD m y []).getD x dflt)

/-- Checked cell access. -/
def Maze.cell? (m : Maze) (y x : ℕ) : Option Char :=
  (List.get? m y).bind (fun row => List.get? row x)

/-- Rectangular maze: every row has the row-0 length.  The spec data model
(§3) requires a rectangular grid. -/
def Maze.Rect (m : Maze) : Prop :=
  ∀ row ∈ m, List.length row = m.width

/-- Player state from `player.rs` (position and view angle). -/
structure Player where
  x : ℚ
  y : ℚ
  angle_of_view : ℚ
  deriving Repr, DecidableEq

/-- Embedding of `Player::try_move` (player.rs lines 55-71): the candidate
position is converted to a grid cell by truncation; out-of-bounds targets and
non-open cells leave the position unchanged; an open cell receives the full
move.  `dflt` stands for the value Rust would read past a short row. -/
def Player.try_moveD (dflt : Char) (p : Player) (dx dy : ℚ) (maze : Maze)
    (block_size : ℕ) : Player :=
  let new_x := p.x + dx
  let new_y := p.y + dy
  let i := rat_to_usize (new_y / (block_size : ℚ))
  let j := rat_to_usize (new_x / (block_size : ℚ))
  if i ≥ maze.len then p
  else if j ≥ maze.width then p
  else
    let cell := maze.cellD dflt i j
    if cell = ' ' then { p with x := new_x, y := new_y }
    else p

/-- Player movement with the default cell fixed (the default is irrelevant on
rectangular mazes, see the out-of-range claim). -/
def Player.try_move (p : Player) (dx dy : ℚ) (maze : Maze)
    (block_size : ℕ) : Player :=
  Player.try_moveD '#' p dx dy maze block_size

/-- Which axis of a wall a ray struck (`ray.rs`). -/
inductive Side where
  | Horizontal
  | Vertical
  deriving Repr, DecidableEq

/-- Result of one raycast (`ray.rs`): perpendicular distance, world hit point,
wall character and struck side. -/
structure Ray where
  distance : ℚ
  hit_x : ℚ
  hit_y : ℚ
  wall_type : Char
  side_hit : Side
  deriving Repr, DecidableEq

/-- Placeholder ray used only as the default of a guarded list lookup. -/
def Ray.dummy : Ray := ⟨0, 0, 0, ' ', Side.Vertical⟩

/-- One run of the DDA `while` loop of `cast_ray` (raycaster.rs lines 60-95),
with the remaining iteration budget (`max_iterations - iterations`) as the
recursion fuel, instrumented to also report how many iterations ran.  Each
round steps into the next cell on the axis with the smaller side distance,
breaks (`none`) when the stepped cell leaves the grid, and stops successfully
when the stepped cell holds a wall character. -/
def dda_loop (maze : Maze) (dflt : Char) (step_x step_y : ℤ)
    (delta_dist_x delta_dist_y : ℚ) :
    ℕ → ℚ → ℚ → ℤ → ℤ → Option (ℤ × ℤ × Side) × ℕ
  | 0, _, _, _, _ => (none, 0)
  | fuel + 1, side_dist_x, side_dist_y, map_x, map_y =>
    let stepped :=
      if side_dist_x < side_dist_y then
        (side_dist_x + delta_dist_x, side_dist_y, map_x + step_x, map_y,
          Side.Vertical)
      else
        (side_dist_x, side_dist_y + delta_dist_y, map_x, map_y + step_y,
          Side.Horizontal)
    match stepped with
    | (sdx, sdy, mx, my, side) =>
      if my < 0 ∨ mx < 0 then (none, 0)
      else if my.toNat ≥ maze.len then (none, 0)
      else if mx.toNat ≥ maze.width then (none, 0)
      else if maze.cellD dflt my.toNat mx.toNat ≠ ' ' then (some (mx, my, side), 1)
      else
        match dda_loop maze dflt step_x step_y delta_dist_x delta_dist_y fuel
            sdx sdy mx my with
        | (res, n) => (res, n + 1)

/-- Initial-state computation and DDA run of `cast_ray` (raycaster.rs lines
12-95): starting cell by truncation, per-axis delta distances (with
`f32::MAX` for an axis-aligned ray), step signs and initial side distances,
then the bounded loop with its cap of 100 iterations. -/
def cast_ray_setup (dflt : Char) (maze : Maze) (block_size : ℕ)
    (pos_x pos_y dir_x dir_y : ℚ) : Option (ℤ × ℤ × Side) × ℕ :=
  let b : ℚ := (block_size : ℚ)
  let map_x := rat_trunc (pos_x / b)
  let map_y := rat_trunc (pos_y / b)
  let delta_dist_x := if dir_x = 0 then f32_max else |1 / dir_x|
  let delta_dist_y := if dir_y = 0 then f32_max else |1 / dir_y|
  let step_x : ℤ := if dir_x < 0 then -1 else 1
  let step_y : ℤ := if dir_y < 0 then -1 else 1
  let side_dist_x :=
    if dir_x < 0 then (pos_x / b - (map_x : ℚ)) * delta_dist_x
    else ((map_x : ℚ) + 1 - pos_x / b) * delta_dist_x
  let side_dist_y :=
    if dir_y < 0 then (pos_y / b - (map_y : ℚ)) * delta_dist_y
    else ((map_y : ℚ) + 1 - pos_y / b) * delta_dist_y
  dda_loop maze dflt step_x step_y delta_dist_x delta_dist_y 100
    side_dist_x side_dist_y map_x map_y

/-- Embedding of `cast_ray` (raycaster.rs) for an already-computed direction
vector `(dir_x, dir_y) = (cos angle, sin angle)`.  `dflt` stands for the value
Rust would read past the end of a short row. -/
def cast_ray_dir (dflt : Char) (maze : Maze) (block_size : ℕ)
    (pos_x pos_y dir_x dir_y : ℚ) : Option Ray :=
  let b : ℚ := (block_size : ℚ)
  let step_x : ℤ := if dir_x < 0 then -1 else 1
  let step_y : ℤ := if dir_y < 0 then -1 else 1
  match (cast_ray_setup dflt maze block_size pos_x pos_y dir_x dir_y).1 with
  | none => none
  | some (mx, my, side) =>
    let perp_wall_dist :=
      if side = Side.Vertical then
        ((mx : ℚ) - pos_x / b + (1 - (step_x : ℚ)) / 2) / dir_x
      else
        ((my : ℚ) - pos_y / b + (1 - (step_y : ℚ)) / 2) / dir_y
    let distance := perp_wall_dist * b
    let hit_x := pos_x + dir_x * distance
    let hit_y := pos_y + dir_y * distance
    let wall_type := maze.cellD dflt my.toNat mx.toNat
    some ⟨distance, hit_x, hit_y, wall_type, side⟩

/-- Embedding of `cast_ray(player, maze, block_size, angle)`: the direction is
the cosine/sine of the angle under the supplied trigonometric model `cosQ`,
`sinQ`. -/
def cast_ray (cosQ sinQ : ℚ → ℚ) (player : Player) (maze : Maze)
    (block_size : ℕ) (angle : ℚ) : Option Ray :=
  cast_ray_dir '#' maze block_size player.x player.y (cosQ angle) (sinQ angle)

/-- Embedding of `cast_single_ray` (raycaster.rs lines 147-149): one ray in the
facing direction. -/
def cast_single_ray (cosQ sinQ : ℚ → ℚ) (player : Player) (maze : Maze)
    (block_size : ℕ) : Option Ray :=
  cast_ray cosQ sinQ player maze block_size player.angle_of_view

/-- Fog-of-war state (`fog_of_war.rs`): explored grid plus cached dimensions,
cell size and vision radius. -/
structure FogOfWar where
  explored : List (List Bool)
  width : ℕ
  height : ℕ
  block_size : ℕ
  vision_radius : ℚ
  deriving Repr, DecidableEq

/-- Embedding of `FogOfWar::new`: an all-false grid matching the maze. -/
def FogOfWar.new (maze : Maze) (block_size : ℕ) (vision_radius : ℚ) :
    FogOfWar :=
  let height := maze.len
  let width := if height > 0 then maze.width else 0
  { explored := List.replicate height (List.replicate width false)
    width := width
    height := height
    block_size := block_size
    vision_radius := vision_radius }

/-- Embedding of `FogOfWar::is_explored` (fog_of_war.rs lines 57-62):
out-of-range queries answer `false`. -/
def FogOfWar.is_explored (f : FogOfWar) (grid_x grid_y : ℕ) : Bool :=
  if grid_y ≥ f.height ∨ grid_x ≥ f.width then false
  else (f.explored.getD grid_y []).getD grid_x false

/-- Embedding of `FogOfWar::mark_explored` (fog_of_war.rs lines 65-69):
in-range cells are set to `true`, out-of-range calls are no-ops. -/
def FogOfWar.mark_explored (f : FogOfWar) (grid_x grid_y : ℕ) : FogOfWar :=
  if grid_y < f.height ∧ grid_x < f.width then
    { f with explored :=
        f.explored.set grid_y ((f.explored.getD grid_y []).set grid_x true) }
  else f

/-- Embedding of `FogOfWar::reset`: every cell back to `false`. -/
def FogOfWar.reset (f : FogOfWar) : FogOfWar :=
  { f with explored := f.explored.map (fun row => row.map (fun _ => false)) }

/-- Integer range `[a, b]` inclusive, the embedding of Rust `a..=b`. -/
def int_range (a b : ℤ) : List ℤ :=
  (List.range (b + 1 - a).toNat).map (fun k => a + (k : ℤ))

/-- Embedding of the `for i in 1..num_steps` scan inside
`FogOfWar::has_line_of_sight` (fog_of_war.rs lines 154-174): walk the sample
points in order; an out-of-bounds sample occludes, the first wall sample is
visible only when it is the target cell itself. -/
def los_scan (maze : Maze) (dflt : Char) (block_size : ℕ)
    (px py dir_x dir_y step_size : ℚ) (target_x target_y : ℕ) :
    List ℕ → Bool
  | [] => true
  | i :: rest =>
    let check_x := px + dir_x * step_size * (i : ℚ)
    let check_y := py + dir_y * step_size * (i : ℚ)
    let check_grid_x := rat_to_usize (check_x / (block_size : ℚ))
    let check_grid_y := rat_to_usize (check_y / (block_size : ℚ))
    if check_grid_y ≥ maze.len ∨ check_grid_x ≥ maze.width then false
    else if maze.cellD dflt check_grid_y check_grid_x ≠ ' ' then
      decide (check_grid_x = target_x ∧ check_grid_y = target_y)
    else
      los_scan maze dflt block_size px py dir_x dir_y step_size target_x
        target_y rest

/-- Embedding of `FogOfWar::has_line_of_sight` (fog_of_war.rs lines 119-177);
`sqrtQ` models `f32::sqrt`. -/
def FogOfWar.has_line_of_sight (sqrtQ : ℚ → ℚ) (dflt : Char) (f : FogOfWar)
    (player : Player) (target_x target_y : ℕ) (maze : Maze) : Bool :=
  let player_grid_x := rat_to_usize (player.x / (f.block_size : ℚ))
  let player_grid_y := rat_to_usize (player.y / (f.block_size : ℚ))
  if player_grid_x = target_x ∧ player_grid_y = target_y then true
  else
    let target_center_x : ℚ := ((target_x * f.block_size + f.block_size / 2 : ℕ) : ℚ)
    let target_center_y : ℚ := ((target_y * f.block_size + f.block_size / 2 : ℕ) : ℚ)
    let dx := target_center_x - player.x
    let dy := target_center_y - player.y
    let distance := sqrtQ (dx * dx + dy * dy)
    if distance < 1 / 1000 then true
    else
      let dir_x := dx / distance
      let dir_y := dy / distance
      let step_size := (f.block_size : ℚ) / 2
      let num_steps := ⌈distance / step_size⌉
      los_scan maze dflt f.block_size player.x player.y dir_x dir_y step_size
        target_x target_y
        ((List.range (num_steps - 1).toNat).map (fun k => k + 1))

/-- Body of the double loop of `FogOfWar::update_from_position`
(fog_of_war.rs lines 80-114) for one offset `(dy, dx)`. -/
def FogOfWar.update_cell (sqrtQ : ℚ → ℚ) (dflt : Char) (player : Player)
    (maze : Maze) (f : FogOfWar) (d : ℤ × ℤ) : FogOfWar :=
  let player_grid_x := rat_trunc (player.x / (f.block_size : ℚ))
  let player_grid_y := rat_trunc (player.y / (f.block_size : ℚ))
  let grid_x := player_grid_x + d.2
  let grid_y := player_grid_y + d.1
  if grid_x < 0 ∨ grid_y < 0 then f
  else
    let gx := grid_x.toNat
    let gy := grid_y.toNat
    if gx ≥ f.width ∨ gy ≥ f.height then f
    else
      let cell_center_x : ℚ := ((gx * f.block_size + f.block_size / 2 : ℕ) : ℚ)
      let cell_center_y : ℚ := ((gy * f.block_size + f.block_size / 2 : ℕ) : ℚ)
      let dist := sqrtQ ((cell_center_x - player.x) ^ 2 +
        (cell_center_y - player.y) ^ 2)
      if dist > f.vision_radius then f
      else if f.has_line_of_sight sqrtQ dflt player gx gy maze then
        f.mark_explored gx gy
      else f

/-- Embedding of `FogOfWar::update_from_position` (fog_of_war.rs lines
73-115): scan the square of cells within the ceiling of the vision radius. -/
def FogOfWar.update_from_position (sqrtQ : ℚ → ℚ) (dflt : Char)
    (f : FogOfWar) (player : Player) (maze : Maze) : FogOfWar :=
  let radius_in_cells := ⌈f.vision_radius / (f.block_size : ℚ)⌉
  let offsets :=
    (int_range (-radius_in_cells) radius_in_cells).flatMap (fun dy =>
      (int_range (-radius_in_cells) radius_in_cells).map (fun dx => (dy, dx)))
  offsets.foldl (FogOfWar.update_cell sqrtQ dflt player maze) f

/-- Embedding of `FogOfWar::update_from_rays` (fog_of_war.rs lines 181-188):
mark the grid cell of each ray hit point. -/
def FogOfWar.update_from_rays (f : FogOfWar) (rays : List Ray) : FogOfWar :=
  rays.foldl (fun acc ray =>
    acc.mark_explored (rat_to_usize (ray.hit_x / (acc.block_size : ℚ)))
      (rat_to_usize (ray.hit_y / (acc.block_size : ℚ)))) f

/-- Embedding of `FogOfWar::update` (fog_of_war.rs lines 192-195). -/
def FogOfWar.update (sqrtQ : ℚ → ℚ) (dflt : Char) (f : FogOfWar)
    (player : Player) (rays : List Ray) (maze : Maze) : FogOfWar :=
  (f.update_from_position sqrtQ dflt player maze).update_from_rays rays

/-- Any of the fog-mutating operations named by the fog monotonicity claim. -/
inductive FogOp where
  | update (sqrtQ : ℚ → ℚ) (dflt : Char) (player : Player) (rays : List Ray)
      (maze : Maze)
  | update_from_position (sqrtQ : ℚ → ℚ) (dflt : Char) (player : Player)
      (maze : Maze)
  | update_from_rays (rays : List Ray)
  | mark_explored (gx gy : ℕ)

/-- Apply one fog operation. -/
def FogOp.apply (f : FogOfWar) : FogOp → FogOfWar
  | FogOp.update sqrtQ dflt player rays maze => f.update sqrtQ dflt player rays maze
  | FogOp.update_from_position sqrtQ dflt player maze =>
      f.update_from_position sqrtQ dflt player maze
  | FogOp.update_from_rays rays => f.update_from_rays rays
  | FogOp.mark_explored gx gy => f.mark_explored gx gy

/-- Apply a sequence of fog operations in order. -/
def FogOp.apply_seq (f : FogOfWar) (ops : List FogOp) : FogOfWar :=
  ops.foldl FogOp.apply f

/-- Enemy AI state (`enemy.rs`). -/
inductive EnemyState where
  | Idle
  | Chase
  | Attack
  | Dead
  deriving Repr, DecidableEq

/-- Animation kinds (`enemy.rs`). -/
inductive AnimationType where
  | Walk
  | Attack
  | Death
  deriving Repr, DecidableEq

/-- Audio events an enemy can emit (`enemy.rs`). -/
inductive EnemyAudioEvent where
  | StartChase
  | Attack
  | Death
  deriving Repr, DecidableEq

/-- Frame count, texture base index and looping flag per animation kind, the
match table repeated in `AnimationState::new` and `set_animation`. -/
def anim_params : AnimationType → ℕ × ℕ × Bool
  | AnimationType.Walk => (4, 0, true)
  | AnimationType.Attack => (3, 4, true)
  | AnimationType.Death => (3, 7, false)

/-- Animation sub-state (`enemy.rs` struct `AnimationState`). -/
structure AnimationState where
  current_type : AnimationType
  frame_index : ℕ
  frame_timer : ℚ
  frame_duration : ℚ
  num_frames : ℕ
  base_index : ℕ
  loop_animation : Bool
  finished : Bool
  deriving Repr, DecidableEq

/-- Embedding of `AnimationState::new`. -/
def AnimationState.new (anim_type : AnimationType) (frame_duration : ℚ) :
    AnimationState :=
  match anim_params anim_type with
  | (num_frames, base_index, loop_animation) =>
    { current_type := anim_type
      frame_index := 0
      frame_timer := 0
      frame_duration := frame_duration
      num_frames := num_frames
      base_index := base_index
      loop_animation := loop_animation
      finished := false }

/-- Embedding of `AnimationState::update`. -/
def AnimationState.update (a : AnimationState) (delta_time : ℚ) :
    AnimationState :=
  if a.finished then a
  else
    let t := a.frame_timer + delta_time
    if t ≥ a.frame_duration then
      let fi := a.frame_index + 1
      if fi ≥ a.num_frames then
        if a.loop_animation then { a with frame_timer := 0, frame_index := 0 }
        else
          { a with frame_timer := 0, frame_index := a.num_frames - 1,
                   finished := true }
      else { a with frame_timer := 0, frame_index := fi }
    else { a with frame_timer := t }

/-- Embedding of `AnimationState::set_animation`. -/
def AnimationState.set_animation (a : AnimationState)
    (anim_type : AnimationType) : AnimationState :=
  if a.current_type = anim_type ∧ a.finished = false then a
  else
    match anim_params anim_type with
    | (num_frames, base_index, loop_animation) =>
      { a with current_type := anim_type
               frame_index := 0
               frame_timer := 0
               num_frames := num_frames
               base_index := base_index
               loop_animation := loop_animation
               finished := false }

/-- Enemy state (`enemy.rs` struct `Enemy`; the `enemy_type` tag has a single
variant `Rat` and is omitted). -/
structure Enemy where
  x : ℚ
  y : ℚ
  state : EnemyState
  health : ℤ
  max_health : ℤ
  scale : ℚ
  animation : AnimationState
  damage_flash_timer : ℚ
  damage_flash_duration : ℚ
  detection_radius : ℚ
  attack_range : ℚ
  move_speed : ℚ
  attack_damage : ℤ
  attack_cooldown : ℚ
  attack_timer : ℚ
  facing_angle : ℚ
  deriving Repr, DecidableEq

/-- Embedding of `Enemy::new_rat`. -/
def Enemy.new_rat (x y : ℚ) : Enemy :=
  { x := x
    y := y
    state := EnemyState.Idle
    health := 20
    max_health := 20
    scale := 7 / 10
    animation := AnimationState.new AnimationType.Walk (15 / 100)
    damage_flash_timer := 0
    damage_flash_duration := 2 / 10
    detection_radius := 300
    attack_range := 40
    move_speed := 80
    attack_damage := 10
    attack_cooldown := 1
    attack_timer := 0
    facing_angle := 0 }

/-- Embedding of `Enemy::is_alive`. -/
def Enemy.is_alive (e : Enemy) : Bool :=
  e.state ≠ EnemyState.Dead

/-- Modelled from the spec: `Enemy::move_toward_player` calls
`crate::maze::is_walkable`, but the provided `maze.rs` does not define that
function.  Following the spec — §6 (cells are traversable exactly when they
hold the open character `' '`), §7 case 3 (world coordinates mapping outside
grid bounds must answer "not walkable" rather than index out of bounds) and
the design note that world-to-grid conversion is the pervasive
float-to-integer truncation — a world point is walkable when its truncated
grid cell lies inside the grid and is open. -/
def is_walkable (maze : Maze) (x y : ℚ) (block_size : ℕ) : Bool :=
  let i := rat_to_usize (y / (block_size : ℚ))
  let j := rat_to_usize (x / (block_size : ℚ))
  decide (maze.cell? i j = some ' ')

/-- Embedding of `Enemy::move_toward_player` (enemy.rs lines 314-346):
normalized step toward the player, with the full move tried first, then the
X-only and Y-only fallbacks (wall sliding).  `sqrtQ` models `f32::sqrt`. -/
def Enemy.move_toward_player (sqrtQ : ℚ → ℚ) (e : Enemy) (delta_time : ℚ)
    (player_x player_y : ℚ) (maze : Maze) (block_size : ℕ) : Enemy :=
  let dx := player_x - e.x
  let dy := player_y - e.y
  let distance := sqrtQ (dx * dx + dy * dy)
  if distance < 1 then e
  else
    let dir_x := dx / distance
    let dir_y := dy / distance
    let move_distance := e.move_speed * delta_time
    let new_x := e.x + dir_x * move_distance
    let new_y := e.y + dir_y * move_distance
    if is_walkable maze new_x new_y block_size then
      { e with x := new_x, y := new_y }
    else if is_walkable maze new_x e.y block_size then { e with x := new_x }
    else if is_walkable maze e.x new_y block_size then { e with y := new_y }
    else e

/-- Result of one enemy update (`enemy.rs` struct `EnemyUpdateResult`). -/
structure EnemyUpdateResult where
  damage : Option ℤ
  audio_event : Option EnemyAudioEvent
  deriving Repr, DecidableEq

/-- Embedding of `Enemy::update` (enemy.rs lines 236-312).  `sqrtQ` models
`f32::sqrt` and `atan2Q` models `f32::atan2` (first argument `y`). -/
def Enemy.update (sqrtQ : ℚ → ℚ) (atan2Q : ℚ → ℚ → ℚ) (e : Enemy)
    (delta_time : ℚ) (player_x player_y : ℚ) (maze : Maze)
    (block_size : ℕ) : Enemy × EnemyUpdateResult :=
  let e := { e with animation := e.animation.update delta_time }
  let e :=
    if e.damage_flash_timer > 0 then
      { e with damage_flash_timer := e.damage_flash_timer - delta_time }
    else e
  if e.is_alive = false then (e, ⟨none, none⟩)
  else
    let e :=
      if e.attack_timer > 0 then
        { e with attack_timer := e.attack_timer - delta_time }
      else e
    let dx := player_x - e.x
    let dy := player_y - e.y
    let distance_to_player := sqrtQ (dx * dx + dy * dy)
    let e := { e with facing_angle := atan2Q dy dx }
    match e.state with
    | EnemyState.Idle =>
      let e := { e with animation := e.animation.set_animation AnimationType.Walk }
      if distance_to_player < e.detection_radius then
        ({ e with state := EnemyState.Chase },
          ⟨none, some EnemyAudioEvent.StartChase⟩)
      else (e, ⟨none, none⟩)
    | EnemyState.Chase =>
      let e := { e with animation := e.animation.set_animation AnimationType.Walk }
      if distance_to_player < e.attack_range then
        ({ e with state := EnemyState.Attack,
                  animation := e.animation.set_animation AnimationType.Attack },
          ⟨none, none⟩)
      else if distance_to_player > e.detection_radius * (3 / 2) then
        ({ e with state := EnemyState.Idle }, ⟨none, none⟩)
      else
        (e.move_toward_player sqrtQ delta_time player_x player_y maze
          block_size, ⟨none, none⟩)
    | EnemyState.Attack =>
      let e := { e with animation := e.animation.set_animation AnimationType.Attack }
      if distance_to_player > e.attack_range * (12 / 10) then
        ({ e with state := EnemyState.Chase }, ⟨none, none⟩)
      else
        if e.attack_timer ≤ 0 ∧ e.animation.frame_index = 1 then
          ({ e with attack_timer := e.attack_cooldown },
            ⟨some e.attack_damage, some EnemyAudioEvent.Attack⟩)
        else (e, ⟨none, none⟩)
    | EnemyState.Dead =>
      ({ e with animation := e.animation.set_animation AnimationType.Death },
        ⟨none, none⟩)

/-- Embedding of `Enemy::take_damage` (enemy.rs lines 349-365). -/
def Enemy.take_damage (e : Enemy) (damage : ℤ) :
    Enemy × Option EnemyAudioEvent :=
  if e.is_alive = false then (e, none)
  else
    let e := { e with health := e.health - damage,
                      damage_flash_timer := e.damage_flash_duration }
    if e.health ≤ 0 then
      ({ e with health := 0, state := EnemyState.Dead,
                animation := e.animation.set_animation AnimationType.Death },
        some EnemyAudioEvent.Death)
    else (e, none)

/-- Embedding of `Enemy::distance_to`. -/
def Enemy.distance_to (sqrtQ : ℚ → ℚ) (e : Enemy) (x y : ℚ) : ℚ :=
  let dx := e.x - x
  let dy := e.y - y
  sqrtQ (dx * dx + dy * dy)

/-- Embedding of `Enemy::texture_index` via
`AnimationState::current_texture_index`. -/
def Enemy.texture_index (e : Enemy) : ℕ :=
  e.animation.base_index + e.animation.frame_index

/-- World sprite (`sprite.rs` struct `Sprite`; the pickup sub-type and radius
play no part in rendering and are omitted). -/
structure Sprite where
  x : ℚ
  y : ℚ
  texture_index : ℕ
  scale : ℚ
  active : Bool
  deriving Repr, DecidableEq

/-- Screen-space projection record (`sprite_renderer.rs` struct
`SpriteProjection`). -/
structure SpriteProjection where
  screen_x : ℚ
  distance : ℚ
  sprite_height : ℚ
  sprite_width : ℚ
  sprite_index : ℕ
  transform_y : ℚ
  deriving Repr, DecidableEq

/-- One framebuffer pixel write: coordinates and RGBA color. -/
structure PixelWrite where
  x : ℤ
  y : ℤ
  r : ℕ
  g : ℕ
  b : ℕ
  a : ℕ
  deriving Repr, DecidableEq

/-- Half-open integer range `[a, b)`, the embedding of Rust `a..b`. -/
def int_range_ex (a b : ℤ) : List ℤ :=
  (List.range (b - a).toNat).map (fun k => a + (k : ℤ))

/-- Embedding of the per-column ray-index computation of
`render_sprite_projection` / `render_projection_direct`: the destination
column is scaled proportionally into the ray array and clamped. -/
def ray_index_of (screen_width : ℤ) (num_rays : ℕ) (screen_x : ℤ) : ℕ :=
  rat_to_usize
    (min (max (((screen_x : ℚ) / (screen_width : ℚ)) * (num_rays : ℚ)) 0)
      ((num_rays - 1 : ℕ) : ℚ))

/-- Embedding of `SpriteRenderer::render_sprite_projection`
(sprite_renderer.rs lines 146-217) and of the textually identical
`render_projection_direct` (lines 296-366), returning the sequence of pixel
writes it performs.  For every covered destination column it skips the whole
column when the sprite depth `transform_y` fails the depth test against the
mapped ray (line 179: `transform_y >= rays[ray_index].distance() + 1.0`). -/
def render_sprite_projection (screen_width screen_height : ℤ)
    (texture_width texture_height : ℤ) (texture_data : List (List (List ℕ)))
    (proj : SpriteProjection) (rays : List Ray) : List PixelWrite :=
  if proj.sprite_index ≥ texture_data.length then []
  else
    let draw_start_x := max (rat_trunc (-proj.sprite_width / 2 + proj.screen_x)) 0
    let draw_end_x := min (rat_trunc (proj.sprite_width / 2 + proj.screen_x)) screen_width
    let draw_start_y :=
      max (rat_trunc ((screen_height : ℚ) / 2 - proj.sprite_height / 2)) 0
    let draw_end_y :=
      min (rat_trunc ((screen_height : ℚ) / 2 + proj.sprite_height / 2)) screen_height
    if draw_start_x ≥ screen_width ∨ draw_end_x ≤ 0 then []
    else
      let texture := texture_data.getD proj.sprite_index []
      (int_range_ex draw_start_x draw_end_x).flatMap (fun screen_x =>
        let ray_index := ray_index_of screen_width rays.length screen_x
        if proj.transform_y ≥ (rays.getD ray_index Ray.dummy).distance + 1 then []
        else
          let d := (screen_x : ℚ) - (proj.screen_x - proj.sprite_width / 2)
          let tex_x := rat_trunc (d * (texture_width : ℚ) / proj.sprite_width)
          if tex_x < 0 ∨ tex_x ≥ texture_width then []
          else
            (int_range_ex draw_start_y draw_end_y).filterMap (fun screen_y =>
              let dy := screen_y -
                rat_trunc ((screen_height : ℚ) / 2 - proj.sprite_height / 2)
              let tex_y :=
                rat_trunc ((dy : ℚ) * (texture_height : ℚ) / proj.sprite_height)
              if tex_y < 0 ∨ tex_y ≥ texture_height then none
              else
                let row := texture.getD tex_y.toNat []
                let x_offset := min (tex_x.toNat * 4) (row.length - 4)
                let r := row.getD x_offset 0
                let g := row.getD (x_offset + 1) 0
                let b := row.getD (x_offset + 2) 0
                let a := row.getD (x_offset + 3) 0
                if (r = 0 ∧ g = 255 ∧ b = 255) ∨ a < 128 then none
                else some ⟨screen_x, screen_y, r, g, b, a⟩))

/-- Embedding of `SpriteRenderer::project_at_position` (sprite_renderer.rs
lines 250-294); `project_sprite` (lines 101-144) is the same computation on a
sprite record.  `cosQ`/`sinQ` model `f32::cos`/`f32::sin`. -/
def project_at_position (cosQ sinQ : ℚ → ℚ) (screen_width screen_height : ℤ)
    (pos_x pos_y : ℚ) (texture_index : ℕ) (scale : ℚ) (player : Player)
    (block_size : ℕ) : Option SpriteProjection :=
  let sprite_x := pos_x - player.x
  let sprite_y := pos_y - player.y
  let dir_x := cosQ player.angle_of_view
  let dir_y := sinQ player.angle_of_view
  let plane_x := -dir_y * (66 / 100)
  let plane_y := dir_x * (66 / 100)
  let inv_det := 1 / (plane_x * dir_y - dir_x * plane_y)
  let transform_x := inv_det * (dir_y * sprite_x - dir_x * sprite_y)
  let transform_y := inv_det * (-plane_y * sprite_x + plane_x * sprite_y)
  if transform_y ≤ 1 / 2 then none
  else
    let screen_x := ((screen_width : ℚ) / 2) * (1 + transform_x / transform_y)
    if screen_x < -100 ∨ screen_x > (screen_width : ℚ) + 100 then none
    else
      let sprite_height :=
        |((screen_height : ℚ) * (block_size : ℚ)) / transform_y| * scale
      some
        { screen_x := screen_x
          distance := transform_y
          sprite_height := sprite_height
          sprite_width := sprite_height
          sprite_index := texture_index
          transform_y := transform_y }

/-- Embedding of `SpriteRenderer::project_sprite`. -/
def project_sprite (cosQ sinQ : ℚ → ℚ) (screen_width screen_height : ℤ)
    (s : Sprite) (player : Player) (block_size : ℕ) :
    Option SpriteProjection :=
  project_at_position cosQ sinQ screen_width screen_height s.x s.y
    s.texture_index s.scale player block_size

/-- Comparator of the two `sort_by` calls in `render_sprites` and
`render_enemies`: `b.distance.partial_cmp(&a.distance)` orders projections by
descending distance. -/
def farther_first (a b : SpriteProjection) : Prop :=
  b.distance ≤ a.distance

instance : DecidableRel farther_first :=
  fun a b => inferInstanceAs (Decidable (b.distance ≤ a.distance))

/-- The back-to-front draw order of `SpriteRenderer::render_sprites`
(sprite_renderer.rs lines 83-93): project the active sprites, then sort by
descending camera-space depth.  Rust `sort_by` is a stable comparator sort; it
is modelled by the (equally stable) structural insertion sort on the same
comparator. -/
def sprites_draw_order (cosQ sinQ : ℚ → ℚ) (screen_width screen_height : ℤ)
    (sprites : List Sprite) (player : Player) (block_size : ℕ) :
    List SpriteProjection :=
  List.insertionSort farther_first
    ((sprites.filter (fun s => s.active)).filterMap (fun s =>
      project_sprite cosQ sinQ screen_width screen_height s player block_size))

/-- The back-to-front draw order of `SpriteRenderer::render_enemies`
(sprite_renderer.rs lines 231-243): project the alive enemies, then sort by
descending camera-space depth (same stable sort model). -/
def enemies_draw_order (cosQ sinQ : ℚ → ℚ) (screen_width screen_height : ℤ)
    (enemies : List Enemy) (player : Player) (block_size : ℕ) :
    List SpriteProjection :=
  List.insertionSort farther_first
    ((enemies.filter (fun e => e.is_alive)).filterMap (fun e =>
      project_at_position cosQ sinQ screen_width screen_height e.x e.y
        e.texture_index e.scale player block_size))

/-- Embedding of `SpriteRenderer::render_sprites` (sprite_renderer.rs lines
71-99) as the list of pixel writes it performs, in program order. -/
def render_sprites (cosQ sinQ : ℚ → ℚ) (screen_width screen_height : ℤ)
    (texture_width texture_height : ℤ) (texture_data : List (List (List ℕ)))
    (sprites : List Sprite) (player : Player) (rays : List Ray)
    (block_size : ℕ) : List PixelWrite :=
  if sprites.isEmpty ∨ rays.isEmpty then []
  else
    (sprites_draw_order cosQ sinQ screen_width screen_height sprites player
      block_size).flatMap (fun proj =>
        render_sprite_projection screen_width screen_height texture_width
          texture_height texture_data proj rays)

/-- Embedding of `SpriteRenderer::render_enemies` (sprite_renderer.rs lines
219-248) as the list of pixel writes it performs, in program order. -/
def render_enemies (cosQ sinQ : ℚ → ℚ) (screen_width screen_height : ℤ)
    (texture_width texture_height : ℤ) (texture_data : List (List (List ℕ)))
    (enemies : List Enemy) (player : Player) (rays : List Ray)
    (block_size : ℕ) : List PixelWrite :=
  if enemies.isEmpty ∨ rays.isEmpty then []
  else
    (enemies_draw_order cosQ sinQ screen_width screen_height enemies player
      block_size).flatMap (fun proj =>
        render_sprite_projection screen_width screen_height texture_width
          texture_height texture_data proj rays)

/-- Sequential overwrite semantics of `framebuffer.set_pixel`: later writes in
the list overwrite earlier ones at the same coordinates. -/
def apply_writes (ws : List PixelWrite) (fb : ℤ × ℤ → Option (ℕ × ℕ × ℕ × ℕ)) :
    ℤ × ℤ → Option (ℕ × ℕ × ℕ × ℕ) :=
  ws.foldl (fun acc w => fun q =>
    if q = (w.x, w.y) then some (w.r, w.g, w.b, w.a) else acc q) fb

/-- The angular-difference computation of the shooting loop (main.rs lines
158-162): absolute difference, reflected once around `PI` when it exceeds
`PI`. -/
def angle_diff_code (angle_to_enemy angle_of_view : ℚ) : ℚ :=
  let angle_diff := |angle_to_enemy - angle_of_view|
  if angle_diff > pi32 then 2 * pi32 - angle_diff else angle_diff

/-- A mathematical wrap of an angular difference into the interval
`[0, pi]` (with `pi` the `f32` constant the source uses): reduce the absolute
difference modulo `2 * pi` and reflect the upper half down.  This is the
notion the specification appeals to. -/
def wrap_to_pi (x : ℚ) : ℚ :=
  let ad := |x|
  let r := ad - 2 * pi32 * (⌊ad / (2 * pi32)⌋ : ℚ)
  if r > pi32 then 2 * pi32 - r else r

/-- Hit test of the shooting loop (main.rs lines 153-166) for one enemy:
alive, angular difference below the 0.1 radian tolerance, and closer than the
forward ray's wall hit. -/
def shot_hits (sqrtQ : ℚ → ℚ) (atan2Q : ℚ → ℚ → ℚ) (player : Player)
    (ray : Ray) (e : Enemy) : Bool :=
  e.is_alive &&
    decide (angle_diff_code (atan2Q (e.y - player.y) (e.x - player.x))
      player.angle_of_view < 1 / 10) &&
    decide (e.distance_to sqrtQ player.x player.y < ray.distance)

/-- Index of the first enemy in iteration order that passes the hit test —
the `break` in the loop of main.rs line 174 stops at that enemy. -/
def first_hit_index (sqrtQ : ℚ → ℚ) (atan2Q : ℚ → ℚ → ℚ) (player : Player)
    (ray : Ray) : List Enemy → Option ℕ
  | [] => none
  | e :: rest =>
    if shot_hits sqrtQ atan2Q player ray e then some 0
    else (first_hit_index sqrtQ atan2Q player ray rest).map (fun i => i + 1)

/-- Embedding of the damage application of the shooting loop (main.rs lines
152-177): the first matching enemy takes the weapon damage, every other enemy
is untouched; the emitted audio event is the one `take_damage` returns. -/
def apply_shot (sqrtQ : ℚ → ℚ) (atan2Q : ℚ → ℚ → ℚ) (player : Player)
    (ray : Ray) (damage : ℤ) (enemies : List Enemy) :
    List Enemy × Option EnemyAudioEvent :=
  match first_hit_index sqrtQ atan2Q player ray enemies with
  | none => (enemies, none)
  | some i =>
    match (enemies.getD i (Enemy.new_rat 0 0)).take_damage damage with
    | (e2, ev) => (enemies.set i e2, ev)

/-- Embedding of the whole shot block of `game_loop` (main.rs lines 151-178):
cast the single forward ray; without a wall hit nothing happens, otherwise
resolve the hit test over the enemy list. -/
def shoot (cosQ sinQ sqrtQ : ℚ → ℚ) (atan2Q : ℚ → ℚ → ℚ) (player : Player)
    (maze : Maze) (block_size : ℕ) (damage : ℤ) (enemies : List Enemy) :
    List Enemy × Option EnemyAudioEvent :=
  match cast_single_ray cosQ sinQ player maze block_size with
  | none => (enemies, none)
  | some ray => apply_shot sqrtQ atan2Q player ray damage enemies

/-- The operations of the enemy lifecycle claim: a hitscan damage application
or one frame update. -/
inductive EnemyOp where
  | take_damage (amount : ℤ)
  | update (sqrtQ : ℚ → ℚ) (atan2Q : ℚ → ℚ → ℚ) (delta_time px py : ℚ)
      (maze : Maze) (block_size : ℕ)

/-- Apply one enemy operation, keeping the emitted audio event. -/
def EnemyOp.apply (e : Enemy) : EnemyOp → Enemy × Option EnemyAudioEvent
  | EnemyOp.take_damage amount => e.take_damage amount
  | EnemyOp.update sqrtQ atan2Q delta_time px py maze block_size =>
    match e.update sqrtQ atan2Q delta_time px py maze block_size with
    | (e2, result) => (e2, result.audio_event)

/-- Run a sequence of enemy operations, collecting the audio events. -/
def EnemyOp.run (e : Enemy) : List EnemyOp → Enemy × List (Option EnemyAudioEvent)
  | [] => (e, [])
  | op :: ops =>
    match EnemyOp.apply e op with
    | (e1, ev) =>
      match EnemyOp.run e1 ops with
      | (e2, evs) => (e2, ev :: evs)

end Wolf

namespace Wolf

theorem rat_trunc_neg_eq_zero (q : ℚ) (h : q < 0) : rat_to_usize q = 0 := by
  unfold rat_to_usize rat_trunc
  rw [if_neg (by exact not_le.mpr h)]
  have : (0:ℤ) ≤ ⌊-q⌋ := Int.floor_nonneg.mpr (by linarith)
  omega

theorem rat_trunc_nonneg (q : ℚ) (h : 0 ≤ q) : rat_trunc q = ⌊q⌋ := by
  unfold rat_trunc
  rw [if_pos h]

theorem getD_set_true_mono (l : List Bool) (i j : ℕ)
    (h : l.getD j false = true) : (l.set i true).getD j false = true := by
  rw [List.getD_eq_getElem?_getD] at h ⊢
  rw [List.getElem?_set]
  by_cases hij : i = j
  · subst hij
    by_cases hl : i < l.length
    · simp [hl]
    · rw [List.getElem?_eq_none (by omega)] at h
      simp at h
  · simp [hij, h]

theorem getD2_set_true_mono (L : List (List Bool)) (ax ay gx gy : ℕ)
    (h : (L.getD gy []).getD gx false = true) :
    ((L.set ay ((L.getD ay []).set ax true)).getD gy []).getD gx false = true := by
  rw [List.getD_eq_getElem?_getD (L.set ay ((L.getD ay []).set ax true)) gy []]
  rw [List.getElem?_set]
  by_cases hyy : ay = gy
  · subst hyy
    by_cases hl : ay < L.length
    · rw [if_pos rfl, if_pos hl, Option.getD_some]
      exact getD_set_true_mono _ ax gx h
    · rw [List.getD_eq_getElem?_getD L ay [], List.getElem?_eq_none (by omega)] at h
      simp at h
  · rw [if_neg hyy, ← List.getD_eq_getElem?_getD]
    exact h

theorem is_explored_mark_mono (f : FogOfWar) (ax ay gx gy : ℕ)
    (h : f.is_explored gx gy = true) :
    (f.mark_explored ax ay).is_explored gx gy = true := by
  unfold FogOfWar.is_explored at h ⊢
  unfold FogOfWar.mark_explored
  by_cases hguard : ay < f.height ∧ ax < f.width
  · rw [if_pos hguard]
    simp only
    by_cases hrange : gy ≥ f.height ∨ gx ≥ f.width
    · rw [if_pos hrange] at h
      exact absurd h (by simp)
    · rw [if_neg hrange] at h
      rw [if_neg hrange]
      exact getD2_set_true_mono f.explored ax ay gx gy h
  · rw [if_neg hguard]
    exact h

theorem is_explored_update_cell_mono (sqrtQ : ℚ → ℚ) (dflt : Char)
    (player : Player) (maze : Maze) (f : FogOfWar) (d : ℤ × ℤ) (gx gy : ℕ)
    (h : f.is_explored gx gy = true) :
    (FogOfWar.update_cell sqrtQ dflt player maze f d).is_explored gx gy = true := by
  simp only [FogOfWar.update_cell]
  split_ifs
  all_goals first
    | exact h
    | exact is_explored_mark_mono f _ _ gx gy h

theorem is_explored_foldl_update_cell_mono (sqrtQ : ℚ → ℚ) (dflt : Char)
    (player : Player) (maze : Maze) (offsets : List (ℤ × ℤ)) (f : FogOfWar)
    (gx gy : ℕ) (h : f.is_explored gx gy = true) :
    (offsets.foldl (FogOfWar.update_cell sqrtQ dflt player maze) f).is_explored
      gx gy = true := by
  induction offsets generalizing f with
  | nil => exact h
  | cons o rest ih =>
    exact ih _ (is_explored_update_cell_mono sqrtQ dflt player maze f o gx gy h)

theorem is_explored_update_from_position_mono (sqrtQ : ℚ → ℚ) (dflt : Char)
    (f : FogOfWar) (player : Player) (maze : Maze) (gx gy : ℕ)
    (h : f.is_explored gx gy = true) :
    (f.update_from_position sqrtQ dflt player maze).is_explored gx gy = true := by
  simp only [FogOfWar.update_from_position]
  exact is_explored_foldl_update_cell_mono sqrtQ dflt player maze _ f gx gy h

theorem is_explored_update_from_rays_mono (f : FogOfWar) (rays : List Ray)
    (gx gy : ℕ) (h : f.is_explored gx gy = true) :
    (f.update_from_rays rays).is_explored gx gy = true := by
  unfold FogOfWar.update_from_rays
  induction rays generalizing f with
  | nil => exact h
  | cons ray rest ih =>
    exact ih _ (is_explored_mark_mono f _ _ gx gy h)

theorem is_explored_update_mono (sqrtQ : ℚ → ℚ) (dflt : Char) (f : FogOfWar)
    (player : Player) (rays : List Ray) (maze : Maze) (gx gy : ℕ)
    (h : f.is_explored gx gy = true) :
    (f.update sqrtQ dflt player rays maze).is_explored gx gy = true := by
  unfold FogOfWar.update
  exact is_explored_update_from_rays_mono _ rays gx gy
    (is_explored_update_from_position_mono sqrtQ dflt f player maze gx gy h)

theorem is_explored_apply_mono (f : FogOfWar) (op : FogOp) (gx gy : ℕ)
    (h : f.is_explored gx gy = true) :
    (FogOp.apply f op).is_explored gx gy = true := by
  cases op with
  | update sqrtQ dflt player rays maze =>
    exact is_explored_update_mono sqrtQ dflt f player rays maze gx gy h
  | update_from_position sqrtQ dflt player maze =>
    exact is_explored_update_from_position_mono sqrtQ dflt f player maze gx gy h
  | update_from_rays rays => exact is_explored_update_from_rays_mono f rays gx gy h
  | mark_explored ax ay => exact is_explored_mark_mono f ax ay gx gy h

theorem getD2_map_false (L : List (List Bool)) (x y : ℕ) :
    ((L.map (fun row => row.map (fun _ => false))).getD y []).getD x false = false := by
  rw [List.getD_eq_getElem?_getD (L.map (fun row => row.map (fun _ => false))) y [],
    List.getElem?_map]
  cases hrow : L[y]? with
  | none => rfl
  | some row =>
    dsimp only [Option.map_some', Option.getD_some]
    rw [List.getD_eq_getElem?_getD (row.map (fun _ => false)) x false,
      List.getElem?_map]
    cases hcell : row[x]? with
    | none => rfl
    | some c => rfl

theorem is_explored_reset_false (g : FogOfWar) (x y : ℕ) :
    (FogOfWar.reset g).is_explored x y = false := by
  unfold FogOfWar.reset FogOfWar.is_explored
  split
  · rfl
  · exact getD2_map_false g.explored x y

/-- Claim C3: fog-of-war exploration is monotonic — once a cell's explored
flag is true it stays true across any sequence of `update`,
`update_from_position`, `update_from_rays` and `mark_explored` calls, and only
the explicit `reset` operation returns explored cells to false (after a
`reset` every cell reads unexplored). -/
theorem fog_of_war_monotonic (ops : List FogOp) (f : FogOfWar) (gx gy : ℕ)
    (h : f.is_explored gx gy = true) :
    (FogOp.apply_seq f ops).is_explored gx gy = true ∧
      (∀ (g : FogOfWar) (x y : ℕ), (FogOfWar.reset g).is_explored x y = false) := by
  constructor
  · unfold FogOp.apply_seq
    induction ops generalizing f with
    | nil => exact h
    | cons op rest ih => exact ih _ (is_explored_apply_mono f op gx gy h)
  · exact is_explored_reset_false

/-- Witness for C3 at a concrete fog grid: a 2×2 fog with cell (0,0) marked
explored stays explored across an update, a ray reveal and a mark. -/
theorem fog_of_war_monotonic_witness :
    ((FogOfWar.new [[' ', ' '], [' ', ' ']] 1 1).mark_explored 0 0).is_explored 0 0 = true ∧
      ((FogOp.apply_seq
          ((FogOfWar.new [[' ', ' '], [' ', ' ']] 1 1).mark_explored 0 0)
          [FogOp.update (fun _ => 0) '#' ⟨0, 0, 0⟩ [] [[' ', ' '], [' ', ' ']],
            FogOp.update_from_rays [⟨1, 0, 0, '#', Side.Vertical⟩],
            FogOp.mark_explored 1 1]).is_explored 0 0 = true ∧
        (∀ (g : FogOfWar) (x y : ℕ), (FogOfWar.reset g).is_explored x y = false)) :=
  ⟨by decide, fog_of_war_monotonic _ _ 0 0 (by decide)⟩

theorem is_alive_false_of_dead (e : Enemy) (h : e.state = EnemyState.Dead) :
    e.is_alive = false := by
  unfold Enemy.is_alive
  rw [h]
  rfl

theorem move_toward_player_health_state (sqrtQ : ℚ → ℚ) (e : Enemy)
    (delta_time px py : ℚ) (maze : Maze) (block_size : ℕ) :
    (e.move_toward_player sqrtQ delta_time px py maze block_size).health = e.health ∧
      (e.move_toward_player sqrtQ delta_time px py maze block_size).state = e.state := by
  simp only [Enemy.move_toward_player]
  split_ifs <;> exact ⟨rfl, rfl⟩

theorem update_health_eq (sqrtQ : ℚ → ℚ) (atan2Q : ℚ → ℚ → ℚ) (e : Enemy)
    (delta_time px py : ℚ) (maze : Maze) (block_size : ℕ) :
    (e.update sqrtQ atan2Q delta_time px py maze block_size).1.health = e.health := by
  simp only [Enemy.update]
  repeat' split
  all_goals first
    | rfl
    | exact (move_toward_player_health_state sqrtQ _ delta_time px py maze
        block_size).1

theorem take_damage_health_nonneg (e : Enemy) (d : ℤ) (h : 0 ≤ e.health) :
    0 ≤ (e.take_damage d).1.health := by
  simp only [Enemy.take_damage]
  split_ifs with h1 h2
  · exact h
  · exact le_refl 0
  · simp only at h2 ⊢
    omega

theorem apply_take_damage_eq (e : Enemy) (amount : ℤ) :
    EnemyOp.apply e (EnemyOp.take_damage amount) = e.take_damage amount := rfl

theorem apply_update_eq (e : Enemy) (sqrtQ : ℚ → ℚ) (atan2Q : ℚ → ℚ → ℚ)
    (dt px py : ℚ) (maze : Maze) (bs : ℕ) :
    EnemyOp.apply e (EnemyOp.update sqrtQ atan2Q dt px py maze bs) =
      ((e.update sqrtQ atan2Q dt px py maze bs).1,
        (e.update sqrtQ atan2Q dt px py maze bs).2.audio_event) := rfl

theorem run_health_nonneg (e : Enemy) (ops : List EnemyOp) (h : 0 ≤ e.health) :
    0 ≤ (EnemyOp.run e ops).1.health := by
  induction ops generalizing e with
  | nil => exact h
  | cons op rest ih =>
    show 0 ≤ (EnemyOp.run e (op :: rest)).1.health
    unfold EnemyOp.run
    cases hop : EnemyOp.apply e op with
    | mk e1 ev =>
      have h1 : 0 ≤ e1.health := by
        cases op with
        | take_damage amount =>
          rw [apply_take_damage_eq] at hop
          have := take_damage_health_nonneg e amount h
          rw [hop] at this
          exact this
        | update sqrtQ atan2Q dt px py maze bs =>
          rw [apply_update_eq] at hop
          cases hop
          rw [update_health_eq]
          exact h
      cases hrun : EnemyOp.run e1 rest with
      | mk e2 evs => exact (congrArg Prod.fst hrun) ▸ ih e1 h1

theorem take_damage_dead (e : Enemy) (d : ℤ) (h : e.state = EnemyState.Dead) :
    e.take_damage d = (e, none) := by
  unfold Enemy.take_damage Enemy.is_alive
  rw [if_pos (by simp [h])]

theorem update_dead (sqrtQ : ℚ → ℚ) (atan2Q : ℚ → ℚ → ℚ) (e : Enemy)
    (delta_time px py : ℚ) (maze : Maze) (block_size : ℕ)
    (h : e.state = EnemyState.Dead) :
    (e.update sqrtQ atan2Q delta_time px py maze block_size).1.state =
        EnemyState.Dead ∧
      (e.update sqrtQ atan2Q delta_time px py maze block_size).2 = ⟨none, none⟩ := by
  simp only [Enemy.update]
  split_ifs with h1 h2 <;>
    first
      | exact ⟨h, rfl⟩
      | exact absurd (is_alive_false_of_dead _ h) (by assumption)

theorem take_damage_death_iff (e : Enemy) (d : ℤ) :
    (e.take_damage d).2 = some EnemyAudioEvent.Death ↔
      e.is_alive = true ∧ e.health - d ≤ 0 := by
  simp only [Enemy.take_damage]
  split_ifs with h1 h2
  · constructor
    · intro h
      exact absurd h (by simp)
    · intro ⟨ha, _⟩
      rw [ha] at h1
      exact Bool.noConfusion h1
  · constructor
    · intro _
      refine ⟨?_, h2⟩
      cases ha : e.is_alive
      · rw [ha] at h1
        exact absurd rfl h1
      · rfl
    · intro _
      rfl
  · constructor
    · intro h
      exact absurd h (by simp)
    · intro ⟨_, hle⟩
      exact absurd hle h2

theorem take_damage_death_result (e : Enemy) (d : ℤ)
    (h : (e.take_damage d).2 = some EnemyAudioEvent.Death) :
    (e.take_damage d).1.state = EnemyState.Dead ∧
      (e.take_damage d).1.health = 0 := by
  simp only [Enemy.take_damage] at h ⊢
  split_ifs at h ⊢ with h1 h2
  all_goals exact ⟨rfl, rfl⟩

theorem update_no_death (sqrtQ : ℚ → ℚ) (atan2Q : ℚ → ℚ → ℚ) (e : Enemy)
    (delta_time px py : ℚ) (maze : Maze) (block_size : ℕ) :
    (e.update sqrtQ atan2Q delta_time px py maze block_size).2.audio_event ≠
      some EnemyAudioEvent.Death := by
  simp only [Enemy.update]
  repeat' split
  all_goals simp

theorem apply_death_event (e : Enemy) (op : EnemyOp) (e1 : Enemy)
    (hop : EnemyOp.apply e op = (e1, some EnemyAudioEvent.Death)) :
    e1.state = EnemyState.Dead := by
  cases op with
  | take_damage amount =>
    rw [apply_take_damage_eq] at hop
    have h2 : (e.take_damage amount).2 = some EnemyAudioEvent.Death := by
      rw [hop]
    have := (take_damage_death_result e amount h2).1
    rw [hop] at this
    exact this
  | update sqrtQ atan2Q dt px py maze bs =>
    rw [apply_update_eq] at hop
    injection hop with hfst hsnd
    exact absurd hsnd (update_no_death sqrtQ atan2Q e dt px py maze bs)

theorem apply_dead_absorbing (e : Enemy) (op : EnemyOp)
    (h : e.state = EnemyState.Dead) :
    (EnemyOp.apply e op).1.state = EnemyState.Dead ∧
      (EnemyOp.apply e op).2 ≠ some EnemyAudioEvent.Death := by
  cases op with
  | take_damage amount =>
    rw [apply_take_damage_eq, take_damage_dead e amount h]
    exact ⟨h, by simp⟩
  | update sqrtQ atan2Q dt px py maze bs =>
    rw [apply_update_eq]
    have hd := update_dead sqrtQ atan2Q e dt px py maze bs h
    refine ⟨hd.1, ?_⟩
    show (e.update sqrtQ atan2Q dt px py maze bs).2.audio_event ≠ some EnemyAudioEvent.Death
    rw [hd.2]
    simp

theorem run_dead_no_death (e : Enemy) (ops : List EnemyOp)
    (h : e.state = EnemyState.Dead) :
    ((EnemyOp.run e ops).2.count (some EnemyAudioEvent.Death)) = 0 := by
  induction ops generalizing e with
  | nil => rfl
  | cons op rest ih =>
    show ((EnemyOp.run e (op :: rest)).2.count (some EnemyAudioEvent.Death)) = 0
    unfold EnemyOp.run
    cases hop : EnemyOp.apply e op with
    | mk e1 ev =>
      cases hrun : EnemyOp.run e1 rest with
      | mk e2 evs =>
        have habs := apply_dead_absorbing e op h
        rw [hop] at habs
        simp only [List.count_cons, hrun]
        have hcount : evs.count (some EnemyAudioEvent.Death) = 0 := by
          have := ih e1 habs.1
          rw [hrun] at this
          exact this
        rw [hcount]
        simp only [Nat.zero_add]
        have : (ev == some EnemyAudioEvent.Death) = false := by
          cases hev : ev == some EnemyAudioEvent.Death
          · rfl
          · exact absurd (eq_of_beq hev) habs.2
        rw [this]
        rfl

theorem run_death_count_le_one (e : Enemy) (ops : List EnemyOp) :
    ((EnemyOp.run e ops).2.count (some EnemyAudioEvent.Death)) ≤ 1 := by
  induction ops generalizing e with
  | nil => exact Nat.zero_le 1
  | cons op rest ih =>
    show ((EnemyOp.run e (op :: rest)).2.count (some EnemyAudioEvent.Death)) ≤ 1
    unfold EnemyOp.run
    cases hop : EnemyOp.apply e op with
    | mk e1 ev =>
      cases hrun : EnemyOp.run e1 rest with
      | mk e2 evs =>
        simp only [List.count_cons, hrun]
        by_cases hev : ev = some EnemyAudioEvent.Death
        · have hdead := apply_death_event e op e1 (hev ▸ hop)
          have hz : evs.count (some EnemyAudioEvent.Death) = 0 := by
            have := run_dead_no_death e1 rest hdead
            rw [hrun] at this
            exact this
          rw [hz]
          simp [hev]
        · have : (ev == some EnemyAudioEvent.Death) = false := by
            cases h2 : ev == some EnemyAudioEvent.Death
            · rfl
            · exact absurd (eq_of_beq h2) hev
          rw [this]
          have := ih e1
          rw [hrun] at this
          simpa using this

/-- Claim C10: enemy health and death invariant — health stays non-negative
along any sequence of `take_damage` and `update` calls (the overshoot is
clamped to 0), `take_damage` on an already-dead enemy changes nothing and
returns `None`, the `Death` audio event is returned exactly when a
`take_damage` call brings an alive enemy to health ≤ 0 (and that call sets the
state to `Dead` with health 0), and any operation sequence emits the `Death`
event at most once. -/
theorem enemy_health_death_invariant (e : Enemy) (ops : List EnemyOp) (d : ℤ) :
    (0 ≤ e.health → 0 ≤ (EnemyOp.run e ops).1.health) ∧
      (e.state = EnemyState.Dead → e.take_damage d = (e, none)) ∧
      ((e.take_damage d).2 = some EnemyAudioEvent.Death ↔
        e.is_alive = true ∧ e.health - d ≤ 0) ∧
      ((e.take_damage d).2 = some EnemyAudioEvent.Death →
        (e.take_damage d).1.state = EnemyState.Dead ∧
          (e.take_damage d).1.health = 0) ∧
      ((EnemyOp.run e ops).2.count (some EnemyAudioEvent.Death)) ≤ 1 :=
  ⟨run_health_nonneg e ops, take_damage_dead e d, take_damage_death_iff e d,
    take_damage_death_result e d, run_death_count_le_one e ops⟩

/-- Witness for C10 at a concrete enemy: a fresh rat (20 health) hit for 25
damage (overshoot clamped, Death emitted) and hit again once dead. -/
theorem enemy_health_death_invariant_witness :
    (0 ≤ (Enemy.new_rat 0 0).health ∧
        0 ≤ (EnemyOp.run (Enemy.new_rat 0 0)
          [EnemyOp.take_damage 25, EnemyOp.take_damage 5]).1.health) ∧
      (((Enemy.new_rat 0 0).take_damage 25).1.state = EnemyState.Dead ∧
        ((Enemy.new_rat 0 0).take_damage 25).1.take_damage 5 =
          (((Enemy.new_rat 0 0).take_damage 25).1, none)) ∧
      (((Enemy.new_rat 0 0).take_damage 25).2 = some EnemyAudioEvent.Death ↔
        (Enemy.new_rat 0 0).is_alive = true ∧
          (Enemy.new_rat 0 0).health - 25 ≤ 0) ∧
      ((EnemyOp.run (Enemy.new_rat 0 0)
          [EnemyOp.take_damage 25, EnemyOp.take_damage 5]).2.count
        (some EnemyAudioEvent.Death)) ≤ 1 := by
  refine ⟨⟨by decide, (enemy_health_death_invariant (Enemy.new_rat 0 0)
    [EnemyOp.take_damage 25, EnemyOp.take_damage 5] 25).1 (by decide)⟩,
    ⟨by decide, ?_⟩, ?_, ?_⟩
  · exact (enemy_health_death_invariant
      ((Enemy.new_rat 0 0).take_damage 25).1 [] 5).2.1 (by decide)
  · exact (enemy_health_death_invariant (Enemy.new_rat 0 0) [] 25).2.2.1
  · exact (enemy_health_death_invariant (Enemy.new_rat 0 0)
      [EnemyOp.take_damage 25, EnemyOp.take_damage 5] 25).2.2.2.2

theorem move_toward_player_state (sqrtQ : ℚ → ℚ) (e : Enemy)
    (delta_time px py : ℚ) (maze : Maze) (block_size : ℕ) :
    (e.move_toward_player sqrtQ delta_time px py maze block_size).state = e.state :=
  (move_toward_player_health_state sqrtQ e delta_time px py maze block_size).2

set_option maxHeartbeats 1000000 in
theorem update_state_chase (sqrtQ : ℚ → ℚ) (atan2Q : ℚ → ℚ → ℚ)
    (e : Enemy) (delta_time px py : ℚ) (maze : Maze) (block_size : ℕ)
    (hstate : e.state = EnemyState.Chase) :
    (e.update sqrtQ atan2Q delta_time px py maze block_size).1.state =
      (if sqrtQ ((px - e.x) * (px - e.x) + (py - e.y) * (py - e.y)) <
          e.attack_range then EnemyState.Attack
       else if sqrtQ ((px - e.x) * (px - e.x) + (py - e.y) * (py - e.y)) >
          e.detection_radius * (3 / 2) then EnemyState.Idle
       else EnemyState.Chase) := by
  simp only [Enemy.update, Enemy.is_alive, apply_ite Enemy.state,
    apply_ite Enemy.x, apply_ite Enemy.y, apply_ite Enemy.attack_range,
    apply_ite Enemy.detection_radius, ite_self, hstate,
    move_toward_player_state, apply_ite Prod.fst]
  simp

set_option maxHeartbeats 1000000 in
theorem update_state_idle (sqrtQ : ℚ → ℚ) (atan2Q : ℚ → ℚ → ℚ)
    (e : Enemy) (delta_time px py : ℚ) (maze : Maze) (block_size : ℕ)
    (hstate : e.state = EnemyState.Idle) :
    (e.update sqrtQ atan2Q delta_time px py maze block_size).1.state =
      (if sqrtQ ((px - e.x) * (px - e.x) + (py - e.y) * (py - e.y)) <
          e.detection_radius then EnemyState.Chase
       else EnemyState.Idle) := by
  simp only [Enemy.update, Enemy.is_alive, apply_ite Enemy.state,
    apply_ite Enemy.x, apply_ite Enemy.y, apply_ite Enemy.detection_radius,
    ite_self, hstate, apply_ite Prod.fst]
  simp

/-- Claim C6: enemy chase hysteresis — with `d` the computed distance to the
player, an enemy in `Chase` stays in `Chase` for every `d` from `attack_range`
up to `detection_radius * 1.5` (which covers the whole claimed band
`[detection_radius, detection_radius * 1.5]`), transitions back to `Idle` only
when `d` exceeds `detection_radius * 1.5`, and an `Idle` enemy enters `Chase`
as soon as `d < detection_radius`; hence an enemy oscillating across the
`detection_radius` boundary goes Idle to Chase and then stays in Chase. -/
theorem enemy_chase_hysteresis (sqrtQ : ℚ → ℚ) (atan2Q : ℚ → ℚ → ℚ)
    (e : Enemy) (delta_time px py : ℚ) (maze : Maze) (block_size : ℕ) :
    ((e.state = EnemyState.Chase →
      e.attack_range ≤ sqrtQ ((px - e.x) * (px - e.x) + (py - e.y) * (py - e.y)) →
      sqrtQ ((px - e.x) * (px - e.x) + (py - e.y) * (py - e.y)) ≤
        e.detection_radius * (3 / 2) →
      (e.update sqrtQ atan2Q delta_time px py maze block_size).1.state =
        EnemyState.Chase) ∧
     (e.state = EnemyState.Chase →
      (e.update sqrtQ atan2Q delta_time px py maze block_size).1.state =
        EnemyState.Idle →
      sqrtQ ((px - e.x) * (px - e.x) + (py - e.y) * (py - e.y)) >
        e.detection_radius * (3 / 2)) ∧
     (e.state = EnemyState.Idle →
      sqrtQ ((px - e.x) * (px - e.x) + (py - e.y) * (py - e.y)) <
        e.detection_radius →
      (e.update sqrtQ atan2Q delta_time px py maze block_size).1.state =
        EnemyState.Chase)) := by
  refine ⟨?_, ?_, ?_⟩
  · intro hstate hd1 hd2
    rw [update_state_chase sqrtQ atan2Q e delta_time px py maze block_size hstate]
    rw [if_neg (not_lt.mpr hd1), if_neg (not_lt.mpr hd2)]
  · intro hstate hidle
    rw [update_state_chase sqrtQ atan2Q e delta_time px py maze block_size
      hstate] at hidle
    by_contra hle
    push_neg at hle
    rw [if_neg (not_lt.mpr hle)] at hidle
    split_ifs at hidle
  · intro hstate hd
    rw [update_state_idle sqrtQ atan2Q e delta_time px py maze block_size
      hstate, if_pos hd]

/-- Witness for C6: the spec scenario — a fresh rat (detection radius 300),
player first at distance 299 (Idle to Chase), then at distance 301 on the next
frame (stays in Chase). -/
theorem enemy_chase_hysteresis_witness :
    ((Enemy.new_rat 0 0).state = EnemyState.Idle ∧
      (299 : ℚ) < (Enemy.new_rat 0 0).detection_radius ∧
      ((Enemy.new_rat 0 0).update (fun _ => 299) (fun _ _ => 0) 1 0 0 [] 1).1.state =
        EnemyState.Chase) ∧
    (((Enemy.new_rat 0 0).update (fun _ => 299) (fun _ _ => 0) 1 0 0 [] 1).1.attack_range ≤
        (301 : ℚ) ∧
      (301 : ℚ) ≤ ((Enemy.new_rat 0 0).update (fun _ => 299) (fun _ _ => 0) 1 0 0 [] 1).1.detection_radius * (3 / 2) ∧
      (((Enemy.new_rat 0 0).update (fun _ => 299) (fun _ _ => 0) 1 0 0 [] 1).1.update
          (fun _ => 301) (fun _ _ => 0) 1 0 0 [] 1).1.state = EnemyState.Chase) := by
  refine ⟨⟨by decide, by decide, ?_⟩, ⟨by decide, by decide, ?_⟩⟩
  · exact (enemy_chase_hysteresis (fun _ => 299) (fun _ _ => 0)
      (Enemy.new_rat 0 0) 1 0 0 [] 1).2.2 (by decide) (by decide)
  · exact (enemy_chase_hysteresis (fun _ => 301) (fun _ _ => 0)
      ((Enemy.new_rat 0 0).update (fun _ => 299) (fun _ _ => 0) 1 0 0 [] 1).1
      1 0 0 [] 1).1 (by decide) (by decide) (by decide)

theorem snd_bump_le {n : ℕ} (p : Option (ℤ × ℤ × Side) × ℕ) (h : p.2 ≤ n) :
    (match p with | (res, m) => (res, m + 1) :
      Option (ℤ × ℤ × Side) × ℕ).2 ≤ n + 1 := by
  cases p
  simpa using Nat.succ_le_succ h

theorem dda_loop_count_le (maze : Maze) (dflt : Char) (sx sy : ℤ)
    (ddx ddy : ℚ) (fuel : ℕ) :
    ∀ (sdx sdy : ℚ) (mx my : ℤ),
      (dda_loop maze dflt sx sy ddx ddy fuel sdx sdy mx my).2 ≤ fuel := by
  induction fuel with
  | zero => intro sdx sdy mx my; exact Nat.le_refl 0
  | succ n ih =>
    intro sdx sdy mx my
    unfold dda_loop
    split <;> dsimp only <;> split_ifs
    all_goals first
      | exact Nat.zero_le _
      | exact Nat.succ_le_succ (Nat.zero_le n)
      | exact snd_bump_le _ (ih _ _ _ _)

/-- Claim C2: `cast_ray` terminates on every input — the DDA runs at most 100
iterations (breaking out earlier when the stepped cell leaves the grid), the
function always returns either `some` ray or `none`, and a run that exhausts
the iteration budget (or leaves the grid) without a wall hit yields `none`. -/
theorem cast_ray_terminates (cosQ sinQ : ℚ → ℚ) (player : Player)
    (maze : Maze) (block_size : ℕ) (angle : ℚ) (dflt : Char)
    (pos_x pos_y dir_x dir_y : ℚ) :
    (cast_ray_setup dflt maze block_size pos_x pos_y dir_x dir_y).2 ≤ 100 ∧
      ((cast_ray_setup dflt maze block_size pos_x pos_y dir_x dir_y).1 = none →
        cast_ray_dir dflt maze block_size pos_x pos_y dir_x dir_y = none) ∧
      (cast_ray cosQ sinQ player maze block_size angle = none ∨
        ∃ r, cast_ray cosQ sinQ player maze block_size angle = some r) := by
  refine ⟨?_, ?_, ?_⟩
  · simp only [cast_ray_setup]
    exact dda_loop_count_le maze dflt _ _ _ _ 100 _ _ _ _
  · intro h
    unfold cast_ray_dir
    rw [h]
  · cases h : cast_ray cosQ sinQ player maze block_size angle with
    | none => exact Or.inl rfl
    | some r => exact Or.inr ⟨r, rfl⟩

set_option maxRecDepth 10000 in
/-- Witness for C2 on a 1×1 all-open maze: the loop leaves the grid on its
first step, reports no hit and `cast_ray` returns `none`. -/
theorem cast_ray_terminates_witness :
    ((cast_ray_setup '#' [[' ']] 1 0 0 1 0).2 ≤ 100 ∧
      ((cast_ray_setup '#' [[' ']] 1 0 0 1 0).1 = none →
        cast_ray_dir '#' [[' ']] 1 0 0 1 0 = none) ∧
      (cast_ray (fun _ => 1) (fun _ => 0) ⟨0, 0, 0⟩ [[' ']] 1 0 = none ∨
        ∃ r, cast_ray (fun _ => 1) (fun _ => 0) ⟨0, 0, 0⟩ [[' ']] 1 0 = some r)) ∧
      (cast_ray_setup '#' [[' ']] 1 0 0 1 0).1 = none ∧
      cast_ray_dir '#' [[' ']] 1 0 0 1 0 = none :=
  ⟨cast_ray_terminates (fun _ => 1) (fun _ => 0) ⟨0, 0, 0⟩ [[' ']] 1 0 '#' 0 0 1 0,
    by decide,
    (cast_ray_terminates (fun _ => 1) (fun _ => 0) ⟨0, 0, 0⟩ [[' ']] 1 0 '#'
      0 0 1 0).2.1 (by decide)⟩

theorem cellD_eq_of_rect (m : Maze) (hrect : m.Rect) (gy gx : ℕ)
    (hy : gy < m.len) (hx : gx < m.width) (d1 d2 : Char) :
    m.cellD d1 gy gx = m.cellD d2 gy gx := by
  unfold Maze.cellD
  have hy2 : gy < m.length := hy
  rw [List.getD_eq_getElem?_getD m gy [], List.getElem?_eq_getElem hy2]
  dsimp only [Option.getD_some]
  have hmem : m[gy] ∈ m := List.getElem_mem hy2
  have hlen : (m[gy]).length = m.width := hrect _ hmem
  have hx2 : gx < (m[gy]).length := by rw [hlen]; exact hx
  rw [List.getD_eq_getElem?_getD _ gx d1, List.getD_eq_getElem?_getD _ gx d2,
    List.getElem?_eq_getElem hx2]
  rfl

theorem dda_loop_dflt_irrel (m : Maze) (hrect : m.Rect) (d1 d2 : Char)
    (sx sy : ℤ) (ddx ddy : ℚ) (fuel : ℕ) :
    ∀ (sdx sdy : ℚ) (mx my : ℤ),
      dda_loop m d1 sx sy ddx ddy fuel sdx sdy mx my =
        dda_loop m d2 sx sy ddx ddy fuel sdx sdy mx my := by
  induction fuel with
  | zero => intro sdx sdy mx my; rfl
  | succ n ih =>
    intro sdx sdy mx my
    unfold dda_loop
    split <;> dsimp only
    · by_cases h1 : my < 0 ∨ mx + sx < 0
      · rw [if_pos h1, if_pos h1]
      · rw [if_neg h1, if_neg h1]
        by_cases h2 : my.toNat ≥ m.len
        · rw [if_pos h2, if_pos h2]
        · rw [if_neg h2, if_neg h2]
          by_cases h3 : (mx + sx).toNat ≥ m.width
          · rw [if_pos h3, if_pos h3]
          · rw [if_neg h3, if_neg h3]
            rw [cellD_eq_of_rect m hrect my.toNat (mx + sx).toNat
              (Nat.lt_of_not_le h2) (Nat.lt_of_not_le h3) d1 d2]
            by_cases h4 : m.cellD d2 my.toNat (mx + sx).toNat ≠ ' '
            · rw [if_pos h4, if_pos h4]
            · rw [if_neg h4, if_neg h4, ih]
    · by_cases h1 : my + sy < 0 ∨ mx < 0
      · rw [if_pos h1, if_pos h1]
      · rw [if_neg h1, if_neg h1]
        by_cases h2 : (my + sy).toNat ≥ m.len
        · rw [if_pos h2, if_pos h2]
        · rw [if_neg h2, if_neg h2]
          by_cases h3 : mx.toNat ≥ m.width
          · rw [if_pos h3, if_pos h3]
          · rw [if_neg h3, if_neg h3]
            rw [cellD_eq_of_rect m hrect (my + sy).toNat mx.toNat
              (Nat.lt_of_not_le h2) (Nat.lt_of_not_le h3) d1 d2]
            by_cases h4 : m.cellD d2 (my + sy).toNat mx.toNat ≠ ' '
            · rw [if_pos h4, if_pos h4]
            · rw [if_neg h4, if_neg h4, ih]

theorem dda_loop_hit_bounds (m : Maze) (d : Char) (sx sy : ℤ)
    (ddx ddy : ℚ) (fuel : ℕ) :
    ∀ (sdx sdy : ℚ) (mx my mx2 my2 : ℤ) (side : Side) (n : ℕ),
      dda_loop m d sx sy ddx ddy fuel sdx sdy mx my = (some (mx2, my2, side), n) →
      0 ≤ mx2 ∧ 0 ≤ my2 ∧ my2.toNat < m.len ∧ mx2.toNat < m.width := by
  induction fuel with
  | zero =>
    intro sdx sdy mx my mx2 my2 side n h
    unfold dda_loop at h
    exact absurd (congrArg Prod.fst h) (fun hc => Option.noConfusion hc)
  | succ k ih =>
    intro sdx sdy mx my mx2 my2 side n h
    unfold dda_loop at h
    split at h <;> dsimp only at h <;> split_ifs at h with h1 h2 h3 h4
    · exact absurd (congrArg Prod.fst h) (fun hc => Option.noConfusion hc)
    · exact absurd (congrArg Prod.fst h) (fun hc => Option.noConfusion hc)
    · exact absurd (congrArg Prod.fst h) (fun hc => Option.noConfusion hc)
    · simp only [Prod.mk.injEq, Option.some_inj] at h
      obtain ⟨⟨e1, e2, _⟩, _⟩ := h
      subst e1
      subst e2
      obtain ⟨hmy, hmx⟩ := not_or.mp h1
      exact ⟨by omega, by omega, Nat.lt_of_not_le h2, Nat.lt_of_not_le h3⟩
    · cases hrec : dda_loop m d sx sy ddx ddy k (sdx + ddx) sdy (mx + sx) my with
      | mk res n2 =>
        rw [hrec] at h
        dsimp only at h
        injection h with hf hs
        rw [hf] at hrec
        exact ih _ _ _ _ _ _ _ _ hrec
    · exact absurd (congrArg Prod.fst h) (fun hc => Option.noConfusion hc)
    · exact absurd (congrArg Prod.fst h) (fun hc => Option.noConfusion hc)
    · exact absurd (congrArg Prod.fst h) (fun hc => Option.noConfusion hc)
    · simp only [Prod.mk.injEq, Option.some_inj] at h
      obtain ⟨⟨e1, e2, _⟩, _⟩ := h
      subst e1
      subst e2
      obtain ⟨hmy, hmx⟩ := not_or.mp h1
      exact ⟨by omega, by omega, Nat.lt_of_not_le h2, Nat.lt_of_not_le h3⟩
    · cases hrec : dda_loop m d sx sy ddx ddy k sdx (sdy + ddy) mx (my + sy) with
      | mk res n2 =>
        rw [hrec] at h
        dsimp only at h
        injection h with hf hs
        rw [hf] at hrec
        exact ih _ _ _ _ _ _ _ _ hrec

theorem cast_ray_setup_dflt_irrel (m : Maze) (hrect : m.Rect) (d1 d2 : Char)
    (bs : ℕ) (px py dx dy : ℚ) :
    cast_ray_setup d1 m bs px py dx dy = cast_ray_setup d2 m bs px py dx dy := by
  simp only [cast_ray_setup]
  exact dda_loop_dflt_irrel m hrect d1 d2 _ _ _ _ 100 _ _ _ _

theorem cast_ray_setup_hit_bounds (d : Char) (m : Maze) (bs : ℕ)
    (px py dx dy : ℚ) (mx my : ℤ) (side : Side)
    (h : (cast_ray_setup d m bs px py dx dy).1 = some (mx, my, side)) :
    0 ≤ mx ∧ 0 ≤ my ∧ my.toNat < m.len ∧ mx.toNat < m.width := by
  cases hsetup : cast_ray_setup d m bs px py dx dy with
  | mk res n =>
    rw [hsetup] at h
    subst h
    simp only [cast_ray_setup] at hsetup
    exact dda_loop_hit_bounds m d _ _ _ _ 100 _ _ _ _ mx my side n hsetup

theorem cast_ray_dir_dflt_irrel (m : Maze) (hrect : m.Rect) (d1 d2 : Char)
    (bs : ℕ) (px py dx dy : ℚ) :
    cast_ray_dir d1 m bs px py dx dy = cast_ray_dir d2 m bs px py dx dy := by
  unfold cast_ray_dir
  rw [cast_ray_setup_dflt_irrel m hrect d1 d2 bs px py dx dy]
  cases hs : (cast_ray_setup d2 m bs px py dx dy).1 with
  | none => rfl
  | some trip =>
    obtain ⟨mx, my, side⟩ := trip
    have hb := cast_ray_setup_hit_bounds d2 m bs px py dx dy mx my side hs
    dsimp only
    rw [cellD_eq_of_rect m hrect my.toNat mx.toNat hb.2.2.1 hb.2.2.2 d1 d2]

theorem try_moveD_dflt_irrel (m : Maze) (hrect : m.Rect) (d1 d2 : Char)
    (p : Player) (dx dy : ℚ) (bs : ℕ) :
    Player.try_moveD d1 p dx dy m bs = Player.try_moveD d2 p dx dy m bs := by
  simp only [Player.try_moveD]
  by_cases h1 : rat_to_usize ((p.y + dy) / (bs : ℚ)) ≥ m.len
  · rw [if_pos h1, if_pos h1]
  · rw [if_neg h1, if_neg h1]
    by_cases h2 : rat_to_usize ((p.x + dx) / (bs : ℚ)) ≥ m.width
    · rw [if_pos h2, if_pos h2]
    · rw [if_neg h2, if_neg h2]
      rw [cellD_eq_of_rect m hrect _ _ (Nat.lt_of_not_le h1)
        (Nat.lt_of_not_le h2) d1 d2]

/-- Claim C9: out-of-range queries are total and defined — a move whose target
grid cell lies outside the grid leaves the player unchanged,
`FogOfWar::is_explored` answers `false` and `mark_explored` is a no-op outside
the fog grid, and on a rectangular maze neither `try_move` nor `cast_ray`
(including its DDA loop, which breaks and yields `none` at the border) ever
reads a cell out of bounds: their results do not depend on the value an
out-of-bounds read would produce. -/
theorem out_of_range_total (dflt d1 d2 : Char) (p : Player) (dx dy : ℚ)
    (maze : Maze) (bs : ℕ) (f : FogOfWar) (gx gy : ℕ) (px py dirx diry : ℚ) :
    ((rat_to_usize ((p.y + dy) / (bs : ℚ)) ≥ maze.len ∨
        rat_to_usize ((p.x + dx) / (bs : ℚ)) ≥ maze.width) →
      Player.try_moveD dflt p dx dy maze bs = p) ∧
    ((gy ≥ f.height ∨ gx ≥ f.width) → f.is_explored gx gy = false) ∧
    ((gy ≥ f.height ∨ gx ≥ f.width) → f.mark_explored gx gy = f) ∧
    (maze.Rect →
      Player.try_moveD d1 p dx dy maze bs = Player.try_moveD d2 p dx dy maze bs) ∧
    (maze.Rect →
      cast_ray_dir d1 maze bs px py dirx diry =
        cast_ray_dir d2 maze bs px py dirx diry) := by
  refine ⟨?_, ?_, ?_, ?_, ?_⟩
  · intro h
    simp only [Player.try_moveD]
    rcases h with h | h
    · rw [if_pos h]
    · by_cases h1 : rat_to_usize ((p.y + dy) / (bs : ℚ)) ≥ maze.len
      · rw [if_pos h1]
      · rw [if_neg h1, if_pos h]
  · intro h
    unfold FogOfWar.is_explored
    rw [if_pos h]
  · intro h
    unfold FogOfWar.mark_explored
    rw [if_neg (by omega)]
  · intro hrect
    exact try_moveD_dflt_irrel maze hrect d1 d2 p dx dy bs
  · intro hrect
    exact cast_ray_dir_dflt_irrel maze hrect d1 d2 bs px py dirx diry

set_option maxRecDepth 10000 in
/-- Witness for C9 on a 2×2 maze: a move far off the grid leaves the player at
(1/2, 1/2), fog queries at (5, 5) are inert, and on the rectangular maze the
results of movement and raycasting are independent of the out-of-bounds
default cell. -/
theorem out_of_range_total_witness :
    (rat_to_usize (((⟨1/2, 1/2, 0⟩ : Player).y + 0) / ((1 : ℕ) : ℚ)) ≥
        Maze.len [[' ', ' '], [' ', '#']] ∨
      rat_to_usize (((⟨1/2, 1/2, 0⟩ : Player).x + 10) / ((1 : ℕ) : ℚ)) ≥
        Maze.width [[' ', ' '], [' ', '#']]) ∧
    (Player.try_moveD '#' ⟨1/2, 1/2, 0⟩ 10 0 [[' ', ' '], [' ', '#']] 1 =
      (⟨1/2, 1/2, 0⟩ : Player)) ∧
    ((5 ≥ (FogOfWar.new [[' ', ' '], [' ', '#']] 1 1).height ∨
        5 ≥ (FogOfWar.new [[' ', ' '], [' ', '#']] 1 1).width) ∧
      (FogOfWar.new [[' ', ' '], [' ', '#']] 1 1).is_explored 5 5 = false ∧
      (FogOfWar.new [[' ', ' '], [' ', '#']] 1 1).mark_explored 5 5 =
        FogOfWar.new [[' ', ' '], [' ', '#']] 1 1) ∧
    (Maze.Rect [[' ', ' '], [' ', '#']] ∧
      Player.try_moveD 'A' ⟨1/2, 1/2, 0⟩ 1 0 [[' ', ' '], [' ', '#']] 1 =
        Player.try_moveD 'B' ⟨1/2, 1/2, 0⟩ 1 0 [[' ', ' '], [' ', '#']] 1 ∧
      cast_ray_dir 'A' [[' ', ' '], [' ', '#']] 1 (1/2) (1/2) 1 1 =
        cast_ray_dir 'B' [[' ', ' '], [' ', '#']] 1 (1/2) (1/2) 1 1) := by
  have hrect : Maze.Rect [[' ', ' '], [' ', '#']] := by
    intro row hrow
    simp only [List.mem_cons, List.not_mem_nil, or_false] at hrow
    rcases hrow with h | h <;> subst h <;> rfl
  refine ⟨by decide, ?_, ⟨by decide, ?_, ?_⟩, hrect, ?_, ?_⟩
  · exact (out_of_range_total '#' 'A' 'B' ⟨1/2, 1/2, 0⟩ 10 0
      [[' ', ' '], [' ', '#']] 1 (FogOfWar.new [[' ', ' '], [' ', '#']] 1 1)
      5 5 (1/2) (1/2) 1 1).1 (by decide)
  · exact (out_of_range_total '#' 'A' 'B' ⟨1/2, 1/2, 0⟩ 10 0
      [[' ', ' '], [' ', '#']] 1 (FogOfWar.new [[' ', ' '], [' ', '#']] 1 1)
      5 5 (1/2) (1/2) 1 1).2.1 (by decide)
  · exact (out_of_range_total '#' 'A' 'B' ⟨1/2, 1/2, 0⟩ 10 0
      [[' ', ' '], [' ', '#']] 1 (FogOfWar.new [[' ', ' '], [' ', '#']] 1 1)
      5 5 (1/2) (1/2) 1 1).2.2.1 (by decide)
  · exact (out_of_range_total '#' 'A' 'B' ⟨1/2, 1/2, 0⟩ 1 0
      [[' ', ' '], [' ', '#']] 1 (FogOfWar.new [[' ', ' '], [' ', '#']] 1 1)
      5 5 (1/2) (1/2) 1 1).2.2.2.1 hrect
  · exact (out_of_range_total '#' 'A' 'B' ⟨1/2, 1/2, 0⟩ 1 0
      [[' ', ' '], [' ', '#']] 1 (FogOfWar.new [[' ', ' '], [' ', '#']] 1 1)
      5 5 (1/2) (1/2) 1 1).2.2.2.2 hrect

theorem mem_render_sprite_projection (screen_width screen_height : ℤ)
    (texture_width texture_height : ℤ) (texture_data : List (List (List ℕ)))
    (proj : SpriteProjection) (rays : List Ray) (w : PixelWrite)
    (hw : w ∈ render_sprite_projection screen_width screen_height
      texture_width texture_height texture_data proj rays) :
    proj.transform_y <
      (rays.getD (ray_index_of screen_width rays.length w.x) Ray.dummy).distance + 1 := by
  simp only [render_sprite_projection] at hw
  split_ifs at hw with hidx hclip
  · exact absurd hw (List.not_mem_nil w)
  · exact absurd hw (List.not_mem_nil w)
  · rw [List.mem_flatMap] at hw
    obtain ⟨sx, hsx, hbody⟩ := hw
    split_ifs at hbody with hdepth htex
    · exact absurd hbody (List.not_mem_nil w)
    · exact absurd hbody (List.not_mem_nil w)
    · rw [List.mem_filterMap] at hbody
      obtain ⟨sy, hsy, hsome⟩ := hbody
      split_ifs at hsome
      all_goals
        injection hsome with hweq
        have hx : w.x = sx := by rw [← hweq]
        rw [hx]
        exact lt_of_not_ge hdepth

/-- Claim C4: sprite depth test — every pixel emitted by
`render_sprite_projection` lies in a destination column whose proportionally
mapped (and clamped) ray index passed the depth test, i.e.
`transform_y < rays[ray_index].distance + 1.0`; consequently a sprite whose
camera depth is at or beyond the mapped ray distance plus the 1.0 epsilon on
every column — in particular a sprite strictly behind the wall each covered
column's ray recorded — produces no pixel at all. -/
theorem sprite_depth_test (screen_width screen_height : ℤ)
    (texture_width texture_height : ℤ) (texture_data : List (List (List ℕ)))
    (proj : SpriteProjection) (rays : List Ray) (w : PixelWrite) :
    (w ∈ render_sprite_projection screen_width screen_height texture_width
        texture_height texture_data proj rays →
      proj.transform_y <
        (rays.getD (ray_index_of screen_width rays.length w.x)
          Ray.dummy).distance + 1) ∧
    ((∀ x : ℤ, proj.transform_y ≥
        (rays.getD (ray_index_of screen_width rays.length x)
          Ray.dummy).distance + 1) →
      render_sprite_projection screen_width screen_height texture_width
        texture_height texture_data proj rays = []) := by
  constructor
  · exact mem_render_sprite_projection screen_width screen_height
      texture_width texture_height texture_data proj rays w
  · intro hall
    cases hrender : render_sprite_projection screen_width screen_height
        texture_width texture_height texture_data proj rays with
    | nil => rfl
    | cons w0 rest =>
      have hmem : w0 ∈ render_sprite_projection screen_width screen_height
          texture_width texture_height texture_data proj rays := by
        rw [hrender]
        exact List.mem_cons_self w0 rest
      have hlt := mem_render_sprite_projection screen_width screen_height
        texture_width texture_height texture_data proj rays w0 hmem
      exact absurd hlt (not_lt.mpr (hall w0.x))

theorem ray_index_single (sw x : ℤ) : ray_index_of sw 1 x = 0 := by
  unfold ray_index_of
  have h0 : ((1 - 1 : ℕ) : ℚ) = 0 := by norm_num
  rw [h0, min_eq_right (le_max_right _ _)]
  unfold rat_to_usize rat_trunc
  simp

set_option maxRecDepth 10000 in
/-- Witness for C4: a projection at camera depth 5 against a single wall ray
at distance 2 fails the depth test on every column (5 is at least 2 + 1), so
nothing is drawn. -/
theorem sprite_depth_test_witness :
    (∀ x : ℤ, (⟨5, 5, 4, 4, 0, 5⟩ : SpriteProjection).transform_y ≥
      (([⟨2, 0, 0, '#', Side.Vertical⟩] : List Ray).getD
        (ray_index_of 10 ([⟨2, 0, 0, '#', Side.Vertical⟩] : List Ray).length x)
        Ray.dummy).distance + 1) ∧
    render_sprite_projection 10 10 2 2 [[[9, 9, 9, 255], [9, 9, 9, 255]]]
      ⟨5, 5, 4, 4, 0, 5⟩ [⟨2, 0, 0, '#', Side.Vertical⟩] = [] := by
  have hyp : ∀ x : ℤ, (⟨5, 5, 4, 4, 0, 5⟩ : SpriteProjection).transform_y ≥
      (([⟨2, 0, 0, '#', Side.Vertical⟩] : List Ray).getD
        (ray_index_of 10 ([⟨2, 0, 0, '#', Side.Vertical⟩] : List Ray).length x)
        Ray.dummy).distance + 1 := by
    intro x
    show ((([⟨2, 0, 0, '#', Side.Vertical⟩] : List Ray).getD
      (ray_index_of 10 1 x) Ray.dummy).distance + 1 : ℚ) ≤ 5
    rw [ray_index_single 10 x]
    decide
  exact ⟨hyp, (sprite_depth_test 10 10 2 2 [[[9, 9, 9, 255], [9, 9, 9, 255]]]
    ⟨5, 5, 4, 4, 0, 5⟩ [⟨2, 0, 0, '#', Side.Vertical⟩] ⟨0, 0, 0, 0, 0, 0⟩).2 hyp⟩

instance : IsTotal SpriteProjection farther_first :=
  ⟨fun a b => le_total b.distance a.distance⟩

instance : IsTrans SpriteProjection farther_first :=
  ⟨fun _ _ _ hab hbc => le_trans hbc hab⟩

theorem pairwise_get_lt (l : List SpriteProjection)
    (hs : List.Pairwise farther_first l) (i j : ℕ) (hi : i < l.length)
    (hj : j < l.length)
    (hlt : (l.get ⟨i, hi⟩).distance < (l.get ⟨j, hj⟩).distance) : j < i := by
  by_contra hnot
  push_neg at hnot
  rcases Nat.lt_or_ge i j with hij | hij
  · have := (List.pairwise_iff_get.mp hs) ⟨i, hi⟩ ⟨j, hj⟩ hij
    exact absurd hlt (not_lt.mpr this)
  · have : i = j := Nat.le_antisymm hnot hij
    subst this
    exact absurd hlt (lt_irrefl _)

theorem apply_writes_append (l1 l2 : List PixelWrite)
    (fb : ℤ × ℤ → Option (ℕ × ℕ × ℕ × ℕ)) :
    apply_writes (l1 ++ l2) fb = apply_writes l2 (apply_writes l1 fb) :=
  List.foldl_append _ _ l1 l2

theorem apply_writes_not_written (ws : List PixelWrite) (q : ℤ × ℤ) :
    ∀ (fb : ℤ × ℤ → Option (ℕ × ℕ × ℕ × ℕ)),
      (∀ w ∈ ws, (w.x, w.y) ≠ q) → apply_writes ws fb q = fb q := by
  induction ws with
  | nil => intro fb h; rfl
  | cons w ws ih =>
    intro fb h
    show apply_writes ws _ q = fb q
    rw [ih _ (fun w2 hw2 => h w2 (List.mem_cons_of_mem w hw2))]
    exact if_neg (fun hc => h w (List.mem_cons_self w ws) hc.symm)

theorem apply_writes_written_indep (ws : List PixelWrite) (q : ℤ × ℤ) :
    ∀ (fb1 fb2 : ℤ × ℤ → Option (ℕ × ℕ × ℕ × ℕ)),
      (∃ w ∈ ws, (w.x, w.y) = q) →
      apply_writes ws fb1 q = apply_writes ws fb2 q := by
  induction ws with
  | nil =>
    intro fb1 fb2 h
    obtain ⟨w, hw, _⟩ := h
    exact absurd hw (List.not_mem_nil w)
  | cons w ws ih =>
    intro fb1 fb2 h
    by_cases hws : ∃ w2 ∈ ws, (w2.x, w2.y) = q
    · exact ih _ _ hws
    · push_neg at hws
      obtain ⟨w0, hw0, hq0⟩ := h
      rcases List.mem_cons.mp hw0 with rfl | hmem
      · show apply_writes ws _ q = apply_writes ws _ q
        rw [apply_writes_not_written ws q _ hws,
          apply_writes_not_written ws q _ hws]
        dsimp only
        rw [if_pos hq0.symm, if_pos hq0.symm]
      · exact absurd hq0 (hws w0 hmem)

/-- Claim C5: painter-algorithm ordering — both `render_sprites` and
`render_enemies` draw their successfully projected active/alive entities
sorted by descending camera depth, so an entity with strictly smaller depth
occupies a strictly later position in the draw order; the renderers emit
exactly the concatenation of per-projection writes in that order, and under
the sequential overwrite semantics the color of any pixel touched from some
projection onward is decided by those later (nearer) draws alone — the
nearest writer is the last write. -/
theorem painter_draw_order (cosQ sinQ : ℚ → ℚ)
    (screen_width screen_height texture_width texture_height : ℤ)
    (texture_data : List (List (List ℕ))) (sprites : List Sprite)
    (enemies : List Enemy) (player : Player) (rays : List Ray)
    (block_size : ℕ) :
    (List.Pairwise farther_first
      (sprites_draw_order cosQ sinQ screen_width screen_height sprites player
        block_size)) ∧
    (List.Pairwise farther_first
      (enemies_draw_order cosQ sinQ screen_width screen_height enemies player
        block_size)) ∧
    (∀ (i j : ℕ) (hi : i < (sprites_draw_order cosQ sinQ screen_width
        screen_height sprites player block_size).length)
      (hj : j < (sprites_draw_order cosQ sinQ screen_width screen_height
        sprites player block_size).length),
      ((sprites_draw_order cosQ sinQ screen_width screen_height sprites player
        block_size).get ⟨i, hi⟩).distance <
        ((sprites_draw_order cosQ sinQ screen_width screen_height sprites
          player block_size).get ⟨j, hj⟩).distance → j < i) ∧
    (∀ (i j : ℕ) (hi : i < (enemies_draw_order cosQ sinQ screen_width
        screen_height enemies player block_size).length)
      (hj : j < (enemies_draw_order cosQ sinQ screen_width screen_height
        enemies player block_size).length),
      ((enemies_draw_order cosQ sinQ screen_width screen_height enemies player
        block_size).get ⟨i, hi⟩).distance <
        ((enemies_draw_order cosQ sinQ screen_width screen_height enemies
          player block_size).get ⟨j, hj⟩).distance → j < i) ∧
    (¬(sprites.isEmpty ∨ rays.isEmpty) →
      render_sprites cosQ sinQ screen_width screen_height texture_width
          texture_height texture_data sprites player rays block_size =
        (sprites_draw_order cosQ sinQ screen_width screen_height sprites
          player block_size).flatMap (fun proj =>
            render_sprite_projection screen_width screen_height texture_width
              texture_height texture_data proj rays)) ∧
    (¬(enemies.isEmpty ∨ rays.isEmpty) →
      render_enemies cosQ sinQ screen_width screen_height texture_width
          texture_height texture_data enemies player rays block_size =
        (enemies_draw_order cosQ sinQ screen_width screen_height enemies
          player block_size).flatMap (fun proj =>
            render_sprite_projection screen_width screen_height texture_width
              texture_height texture_data proj rays)) ∧
    (∀ (l1 : List SpriteProjection) (p : SpriteProjection)
      (l2 : List SpriteProjection) (q : ℤ × ℤ)
      (fb1 fb2 : ℤ × ℤ → Option (ℕ × ℕ × ℕ × ℕ)),
      sprites_draw_order cosQ sinQ screen_width screen_height sprites player
          block_size = l1 ++ p :: l2 →
      (∃ w ∈ (p :: l2).flatMap (fun proj =>
          render_sprite_projection screen_width screen_height texture_width
            texture_height texture_data proj rays), (w.x, w.y) = q) →
      apply_writes ((sprites_draw_order cosQ sinQ screen_width screen_height
          sprites player block_size).flatMap (fun proj =>
            render_sprite_projection screen_width screen_height texture_width
              texture_height texture_data proj rays)) fb1 q =
        apply_writes ((p :: l2).flatMap (fun proj =>
          render_sprite_projection screen_width screen_height texture_width
            texture_height texture_data proj rays)) fb2 q) := by
  refine ⟨List.sorted_insertionSort farther_first _,
    List.sorted_insertionSort farther_first _, ?_, ?_, ?_, ?_, ?_⟩
  · exact fun i j hi hj =>
      pairwise_get_lt _ (List.sorted_insertionSort farther_first _) i j hi hj
  · exact fun i j hi hj =>
      pairwise_get_lt _ (List.sorted_insertionSort farther_first _) i j hi hj
  · intro h
    unfold render_sprites
    rw [if_neg h]
  · intro h
    unfold render_enemies
    rw [if_neg h]
  · intro l1 p l2 q fb1 fb2 hsplit hq
    rw [hsplit, List.flatMap_append, apply_writes_append]
    exact apply_writes_written_indep _ q _ _ hq

set_option maxRecDepth 100000 in
/-- Witness for C5: two active sprites straight ahead of the camera at depths
5 and 2 with one far wall ray — the draw order is back-to-front ([depth 5,
depth 2]), the nearer sprite (depth 2) is drawn last, and the shared pixel
(4, 4) is decided by the nearer draw alone. -/
theorem painter_draw_order_witness :
    (((sprites_draw_order (fun _ => 1) (fun _ => 0) 10 10
        [⟨5, 0, 0, 1, true⟩, ⟨2, 0, 0, 1, true⟩] ⟨0, 0, 0⟩ 1).get
        ⟨1, by decide⟩).distance <
      ((sprites_draw_order (fun _ => 1) (fun _ => 0) 10 10
        [⟨5, 0, 0, 1, true⟩, ⟨2, 0, 0, 1, true⟩] ⟨0, 0, 0⟩ 1).get
        ⟨0, by decide⟩).distance ∧ (0 : ℕ) < 1) ∧
    (¬(([⟨5, 0, 0, 1, true⟩, ⟨2, 0, 0, 1, true⟩] : List Sprite).isEmpty ∨
        ([⟨100, 0, 0, ' ', Side.Vertical⟩] : List Ray).isEmpty) ∧
      render_sprites (fun _ => 1) (fun _ => 0) 10 10 1 1 [[[9, 9, 9, 255]]]
          [⟨5, 0, 0, 1, true⟩, ⟨2, 0, 0, 1, true⟩] ⟨0, 0, 0⟩
          [⟨100, 0, 0, ' ', Side.Vertical⟩] 1 =
        (sprites_draw_order (fun _ => 1) (fun _ => 0) 10 10
          [⟨5, 0, 0, 1, true⟩, ⟨2, 0, 0, 1, true⟩] ⟨0, 0, 0⟩ 1).flatMap
          (fun proj => render_sprite_projection 10 10 1 1 [[[9, 9, 9, 255]]]
            proj [⟨100, 0, 0, ' ', Side.Vertical⟩])) ∧
    (sprites_draw_order (fun _ => 1) (fun _ => 0) 10 10
        [⟨5, 0, 0, 1, true⟩, ⟨2, 0, 0, 1, true⟩] ⟨0, 0, 0⟩ 1 =
        [⟨5, 5, 2, 2, 0, 5⟩] ++ ⟨5, 2, 5, 5, 0, 2⟩ :: [] ∧
      (∃ w ∈ ((⟨5, 2, 5, 5, 0, 2⟩ : SpriteProjection) ::
          ([] : List SpriteProjection)).flatMap
          (fun proj => render_sprite_projection 10 10 1 1 [[[9, 9, 9, 255]]]
            proj [⟨100, 0, 0, ' ', Side.Vertical⟩]),
        (w.x, w.y) = ((4 : ℤ), (4 : ℤ))) ∧
      apply_writes ((sprites_draw_order (fun _ => 1) (fun _ => 0) 10 10
          [⟨5, 0, 0, 1, true⟩, ⟨2, 0, 0, 1, true⟩] ⟨0, 0, 0⟩ 1).flatMap
          (fun proj => render_sprite_projection 10 10 1 1 [[[9, 9, 9, 255]]]
            proj [⟨100, 0, 0, ' ', Side.Vertical⟩])) (fun _ => none) (4, 4) =
        apply_writes (((⟨5, 2, 5, 5, 0, 2⟩ : SpriteProjection) ::
          ([] : List SpriteProjection)).flatMap
          (fun proj => render_sprite_projection 10 10 1 1 [[[9, 9, 9, 255]]]
            proj [⟨100, 0, 0, ' ', Side.Vertical⟩])) (fun _ => none) (4, 4)) := by
  refine ⟨⟨by decide, ?_⟩, ⟨by decide, ?_⟩, by decide, by decide, ?_⟩
  · exact (painter_draw_order (fun _ => 1) (fun _ => 0) 10 10 1 1
      [[[9, 9, 9, 255]]] [⟨5, 0, 0, 1, true⟩, ⟨2, 0, 0, 1, true⟩] []
      ⟨0, 0, 0⟩ [⟨100, 0, 0, ' ', Side.Vertical⟩] 1).2.2.1 1 0 (by decide)
      (by decide) (by decide)
  · exact (painter_draw_order (fun _ => 1) (fun _ => 0) 10 10 1 1
      [[[9, 9, 9, 255]]] [⟨5, 0, 0, 1, true⟩, ⟨2, 0, 0, 1, true⟩] []
      ⟨0, 0, 0⟩ [⟨100, 0, 0, ' ', Side.Vertical⟩] 1).2.2.2.2.1 (by decide)
  · exact (painter_draw_order (fun _ => 1) (fun _ => 0) 10 10 1 1
      [[[9, 9, 9, 255]]] [⟨5, 0, 0, 1, true⟩, ⟨2, 0, 0, 1, true⟩] []
      ⟨0, 0, 0⟩ [⟨100, 0, 0, ' ', Side.Vertical⟩] 1).2.2.2.2.2.2
      [⟨5, 5, 2, 2, 0, 5⟩] ⟨5, 2, 5, 5, 0, 2⟩ [] (4, 4) (fun _ => none)
      (fun _ => none) (by decide) (by decide)

/-- Counterexample to claim C8 as stated: `Player::try_move` does not retry a
blocked move on the X axis alone.  With an open row above a wall row, a
diagonal move whose full destination is blocked leaves the player entirely in
place even though the X-only destination cell is open — the position does not
change on the unblocked axis. -/
theorem player_no_wall_slide_counterexample :
    is_walkable [[' ', ' '], ['#', ' ']]
        ((⟨1/2, 1/2, 0⟩ : Player).x + 1/5) (⟨1/2, 1/2, 0⟩ : Player).y 1 = true ∧
      is_walkable [[' ', ' '], ['#', ' ']]
        ((⟨1/2, 1/2, 0⟩ : Player).x + 1/5) ((⟨1/2, 1/2, 0⟩ : Player).y + 1) 1 = false ∧
      Player.try_move ⟨1/2, 1/2, 0⟩ (1/5) 1 [[' ', ' '], ['#', ' ']] 1 =
        (⟨1/2, 1/2, 0⟩ : Player) := by
  decide

/-- Claim C8 (amended): only enemy movement is axis-tested — on a blocked full
move, `Enemy::move_toward_player` retries the X axis alone and then the Y axis
alone, moving on whichever single axis is walkable; `Player::try_move` tests
only the full destination cell, applying the whole move when that cell is open
and leaving the position entirely unchanged otherwise. -/
theorem wall_sliding_amended (sqrtQ : ℚ → ℚ) (e : Enemy)
    (delta_time px py : ℚ) (maze : Maze) (block_size : ℕ) (dflt : Char)
    (p : Player) (dx dy : ℚ) (d nx ny : ℚ)
    (hd : sqrtQ ((px - e.x) * (px - e.x) + (py - e.y) * (py - e.y)) = d)
    (h1 : 1 ≤ d)
    (hnx : e.x + (px - e.x) / d * (e.move_speed * delta_time) = nx)
    (hny : e.y + (py - e.y) / d * (e.move_speed * delta_time) = ny) :
    ((is_walkable maze nx ny block_size = true →
        e.move_toward_player sqrtQ delta_time px py maze block_size =
          { e with x := nx, y := ny }) ∧
     (is_walkable maze nx ny block_size = false →
      is_walkable maze nx e.y block_size = true →
        e.move_toward_player sqrtQ delta_time px py maze block_size =
          { e with x := nx }) ∧
     (is_walkable maze nx ny block_size = false →
      is_walkable maze nx e.y block_size = false →
      is_walkable maze e.x ny block_size = true →
        e.move_toward_player sqrtQ delta_time px py maze block_size =
          { e with y := ny }) ∧
     (is_walkable maze nx ny block_size = false →
      is_walkable maze nx e.y block_size = false →
      is_walkable maze e.x ny block_size = false →
        e.move_toward_player sqrtQ delta_time px py maze block_size = e)) ∧
    ((rat_to_usize ((p.y + dy) / (block_size : ℚ)) < maze.len →
      rat_to_usize ((p.x + dx) / (block_size : ℚ)) < maze.width →
      maze.cellD dflt (rat_to_usize ((p.y + dy) / (block_size : ℚ)))
        (rat_to_usize ((p.x + dx) / (block_size : ℚ))) ≠ ' ' →
        Player.try_moveD dflt p dx dy maze block_size = p) ∧
     (rat_to_usize ((p.y + dy) / (block_size : ℚ)) < maze.len →
      rat_to_usize ((p.x + dx) / (block_size : ℚ)) < maze.width →
      maze.cellD dflt (rat_to_usize ((p.y + dy) / (block_size : ℚ)))
        (rat_to_usize ((p.x + dx) / (block_size : ℚ))) = ' ' →
        Player.try_moveD dflt p dx dy maze block_size =
          { p with x := p.x + dx, y := p.y + dy })) := by
  constructor
  · simp only [Enemy.move_toward_player, hd, hnx, hny]
    rw [if_neg (not_lt.mpr h1)]
    refine ⟨?_, ?_, ?_, ?_⟩
    · intro hfull
      rw [hfull]
      rw [if_pos rfl]
    · intro hfull hx
      rw [hfull, hx]
      simp
    · intro hfull hx hy
      rw [hfull, hx, hy]
      simp
    · intro hfull hx hy
      rw [hfull, hx, hy]
      simp
  · constructor
    · intro hi hj hcell
      simp only [Player.try_moveD]
      rw [if_neg (not_le.mpr hi), if_neg (not_le.mpr hj), if_neg hcell]
    · intro hi hj hcell
      simp only [Player.try_moveD]
      rw [if_neg (not_le.mpr hi), if_neg (not_le.mpr hj), if_pos hcell]

set_option maxRecDepth 100000 in
/-- Witness for the amended C8: a rat at (1/2, 1/2) on an open row above a
grid edge slides along the X axis when the full move (blocked below the grid)
fails but the X-only cell is open, while a player whose diagonal destination
cell holds a wall does not move at all. -/
theorem wall_sliding_amended_witness :
    ((fun _ => (5 : ℚ)) (((7 : ℚ)/2 - (Enemy.new_rat (1/2) (1/2)).x) *
        ((7 : ℚ)/2 - (Enemy.new_rat (1/2) (1/2)).x) +
        ((9 : ℚ)/2 - (Enemy.new_rat (1/2) (1/2)).y) *
        ((9 : ℚ)/2 - (Enemy.new_rat (1/2) (1/2)).y)) = (5 : ℚ) ∧
      (1 : ℚ) ≤ 5 ∧
      is_walkable [List.replicate 50 ' ', List.replicate 50 '#'] (97/2) (129/2) 1 = false ∧
      is_walkable [List.replicate 50 ' ', List.replicate 50 '#'] (97/2)
        (Enemy.new_rat (1/2) (1/2)).y 1 = true) ∧
    (Enemy.new_rat (1/2) (1/2)).move_toward_player (fun _ => 5) 1 (7/2) (9/2)
        [List.replicate 50 ' ', List.replicate 50 '#'] 1 =
      { Enemy.new_rat (1/2) (1/2) with x := 97/2 } ∧
    Player.try_moveD '?' ⟨1/2, 1/2, 0⟩ (1/5) 1 [[' ', ' '], ['#', ' ']] 1 =
      (⟨1/2, 1/2, 0⟩ : Player) := by
  refine ⟨⟨by decide, by decide, by decide, by decide⟩, ?_, ?_⟩
  · exact (wall_sliding_amended (fun _ => 5) (Enemy.new_rat (1/2) (1/2)) 1
      (7/2) (9/2) [List.replicate 50 ' ', List.replicate 50 '#'] 1 '?'
      ⟨1/2, 1/2, 0⟩ (1/5) 1 5 (97/2) (129/2) (by decide) (by decide)
      (by decide) (by decide)).1.2.1 (by decide) (by decide)
  · exact (wall_sliding_amended (fun _ => 5) (Enemy.new_rat (1/2) (1/2)) 1
      (7/2) (9/2) [[' ', ' '], ['#', ' ']] 1 '?'
      ⟨1/2, 1/2, 0⟩ (1/5) 1 5 (97/2) (129/2) (by decide) (by decide)
      (by decide) (by decide)).2.1 (by decide) (by decide) (by decide)

theorem first_hit_spec (sqrtQ : ℚ → ℚ) (atan2Q : ℚ → ℚ → ℚ)
    (player : Player) (ray : Ray) :
    ∀ (es : List Enemy) (i : ℕ),
      first_hit_index sqrtQ atan2Q player ray es = some i →
      ∃ e, es[i]? = some e ∧ shot_hits sqrtQ atan2Q player ray e = true := by
  intro es
  induction es with
  | nil => intro i h; exact Option.noConfusion h
  | cons e rest ih =>
    intro i h
    unfold first_hit_index at h
    split_ifs at h with hhit
    · injection h with hi
      subst hi
      exact ⟨e, by simp, hhit⟩
    · cases hrec : first_hit_index sqrtQ atan2Q player ray rest with
      | none =>
        rw [hrec] at h
        exact Option.noConfusion h
      | some k =>
        rw [hrec] at h
        dsimp only [Option.map] at h
        injection h with hi
        subst hi
        obtain ⟨e2, hget, hhit2⟩ := ih k hrec
        exact ⟨e2, by rw [List.getElem?_cons_succ]; exact hget, hhit2⟩

/-- Claim C1 (amended): for every shot resolved against a cast forward ray, an
enemy is damaged only if it is alive, the once-reflected angular difference
the code computes (absolute difference, replaced by `2 PI - diff` when above
`PI`) is below the 0.1 tolerance, and its distance to the player is strictly
below the ray's wall distance; at most one enemy (the first match) is
modified; an enemy at or beyond the wall distance is never damaged (the
occlusion miss); and the code's reflected difference agrees with the
wrap-into-`[0, PI]` of the true angular difference exactly when the raw
absolute difference is at most `2 PI` (for a view angle drifted further the
reflected value goes negative and the tolerance test can pass spuriously). -/
theorem shot_resolution_amended (cosQ sinQ sqrtQ : ℚ → ℚ)
    (atan2Q : ℚ → ℚ → ℚ) (player : Player) (maze : Maze) (block_size : ℕ)
    (ray : Ray) (damage : ℤ) (enemies : List Enemy) (i j : ℕ) (x angle : ℚ)
    (e : Enemy) :
    (first_hit_index sqrtQ atan2Q player ray enemies = some i →
      ∃ e2, enemies[i]? = some e2 ∧ e2.is_alive = true ∧
        angle_diff_code (atan2Q (e2.y - player.y) (e2.x - player.x))
          player.angle_of_view < 1 / 10 ∧
        e2.distance_to sqrtQ player.x player.y < ray.distance) ∧
    (first_hit_index sqrtQ atan2Q player ray enemies = some i → j ≠ i →
      (apply_shot sqrtQ atan2Q player ray damage enemies).1[j]? = enemies[j]?) ∧
    (first_hit_index sqrtQ atan2Q player ray enemies = none →
      apply_shot sqrtQ atan2Q player ray damage enemies = (enemies, none)) ∧
    (|x - angle| ≤ 2 * pi32 → angle_diff_code x angle = wrap_to_pi (x - angle)) ∧
    (enemies[i]? = some e →
      ¬ (e.distance_to sqrtQ player.x player.y < ray.distance) →
      (apply_shot sqrtQ atan2Q player ray damage enemies).1[i]? = enemies[i]?) ∧
    (cast_single_ray cosQ sinQ player maze block_size = none →
      shoot cosQ sinQ sqrtQ atan2Q player maze block_size damage enemies =
        (enemies, none)) ∧
    (cast_single_ray cosQ sinQ player maze block_size = some ray →
      shoot cosQ sinQ sqrtQ atan2Q player maze block_size damage enemies =
        apply_shot sqrtQ atan2Q player ray damage enemies) := by
  have hguards : ∀ e2 : Enemy, shot_hits sqrtQ atan2Q player ray e2 = true →
      e2.is_alive = true ∧
        angle_diff_code (atan2Q (e2.y - player.y) (e2.x - player.x))
          player.angle_of_view < 1 / 10 ∧
        e2.distance_to sqrtQ player.x player.y < ray.distance := by
    intro e2 h
    unfold shot_hits at h
    rw [Bool.and_eq_true, Bool.and_eq_true] at h
    exact ⟨h.1.1, of_decide_eq_true h.1.2, of_decide_eq_true h.2⟩
  refine ⟨?_, ?_, ?_, ?_, ?_, ?_, ?_⟩
  · intro hfirst
    obtain ⟨e2, hget, hhit⟩ := first_hit_spec sqrtQ atan2Q player ray enemies i hfirst
    exact ⟨e2, hget, hguards e2 hhit⟩
  · intro hfirst hne
    unfold apply_shot
    rw [hfirst]
    dsimp only
    rw [List.getElem?_set]
    exact if_neg (fun hc => hne hc.symm)
  · intro hnone
    unfold apply_shot
    rw [hnone]
  · intro h
    have hpi : (0 : ℚ) < pi32 := by norm_num [pi32]
    simp only [angle_diff_code, wrap_to_pi]
    rcases lt_or_eq_of_le h with hlt | heq
    · have hfl : ⌊|x - angle| / (2 * pi32)⌋ = 0 := by
        rw [Int.floor_eq_zero_iff, Set.mem_Ico]
        constructor
        · exact div_nonneg (abs_nonneg _) (by linarith)
        · rw [div_lt_one (by linarith)]
          exact hlt
      rw [hfl]
      norm_num
    · rw [heq, div_self (by linarith : (2 : ℚ) * pi32 ≠ 0), Int.floor_one]
      rw [if_pos (by linarith : (2 : ℚ) * pi32 > pi32)]
      rw [if_neg (by push_cast; linarith : ¬ (2 * pi32 - 2 * pi32 * ((1 : ℤ) : ℚ) > pi32))]
      push_cast
      ring
  · intro hget hfar
    cases hfh : first_hit_index sqrtQ atan2Q player ray enemies with
    | none =>
      unfold apply_shot
      rw [hfh]
    | some k =>
      by_cases hk : k = i
      · subst hk
        obtain ⟨e2, hget2, hhit⟩ := first_hit_spec sqrtQ atan2Q player ray
          enemies k hfh
        rw [hget] at hget2
        injection hget2 with he2
        subst he2
        exact absurd (hguards _ hhit).2.2 hfar
      · unfold apply_shot
        rw [hfh]
        dsimp only
        rw [List.getElem?_set]
        exact if_neg hk
  · intro hnone
    unfold shoot
    rw [hnone]
  · intro hsome
    unfold shoot
    rw [hsome]

set_option maxRecDepth 1000000 in
set_option maxHeartbeats 2000000 in
/-- Counterexample to claim C1 as stated: the player stands at (320, 320) in a
10×10 walled room with an accumulated view angle of 7 radians (rotation is
unbounded in the source), and an alive rat sits 10 units due east, so the true
angle from player to enemy is atan2(0, 10) = 0 exactly (the supplied `atan2`
and `sqrt` models return the exact values 0 and 10 for the one query each
receives, and the cos/sin models rational approximations of cos 7 and sin 7).
The angular difference wrapped into [0, PI] is about 0.717 — far above the 0.1
tolerance — yet the shot damages the enemy (health drops from 20 to 15),
because the code's single reflection `2 PI - |0 - 7|` is negative and passes
the `< 0.1` test. -/
theorem shot_wrap_counterexample :
    ¬ (wrap_to_pi ((0 : ℚ) - (⟨320, 320, 7⟩ : Player).angle_of_view) < 1 / 10) ∧
      ((shoot (fun _ => 754 / 1000) (fun _ => 657 / 1000) (fun _ => 10)
          (fun _ _ => 0) ⟨320, 320, 7⟩
          (List.replicate 10 '#' ::
            (List.replicate 8 ('#' :: (List.replicate 8 ' ' ++ ['#'])) ++
              [List.replicate 10 '#'])) 64 5
          [Enemy.new_rat 330 320]).1.headD (Enemy.new_rat 0 0)).health = 15 ∧
      (Enemy.new_rat 330 320).health = 20 := by
  refine ⟨by decide, by decide, by decide⟩

set_option maxRecDepth 100000 in
/-- Witness for the amended C1: a rat 5 units east of a player facing east —
with a far wall (ray distance 100) the first-match hit resolution fires and
touches only index 0; with a near wall (ray distance 3 < enemy distance 5) the
enemy is untouched; and the reflected difference matches the proper wrap on a
small difference. -/
theorem shot_resolution_amended_witness :
    (first_hit_index (fun _ => 5) (fun _ _ => 0) ⟨0, 0, 0⟩
        ⟨100, 0, 0, '#', Side.Vertical⟩ [Enemy.new_rat 5 0] = some 0 ∧
      ∃ e2, ([Enemy.new_rat 5 0] : List Enemy)[0]? = some e2 ∧
        e2.is_alive = true ∧
        angle_diff_code ((fun _ _ => (0 : ℚ)) (e2.y - (⟨0, 0, 0⟩ : Player).y)
            (e2.x - (⟨0, 0, 0⟩ : Player).x))
          (⟨0, 0, 0⟩ : Player).angle_of_view < 1 / 10 ∧
        e2.distance_to (fun _ => 5) (⟨0, 0, 0⟩ : Player).x
          (⟨0, 0, 0⟩ : Player).y <
          (⟨100, 0, 0, '#', Side.Vertical⟩ : Ray).distance) ∧
    ((1 : ℕ) ≠ 0 ∧
      (apply_shot (fun _ => 5) (fun _ _ => 0) ⟨0, 0, 0⟩
          ⟨100, 0, 0, '#', Side.Vertical⟩ 5 [Enemy.new_rat 5 0]).1[1]? =
        ([Enemy.new_rat 5 0] : List Enemy)[1]?) ∧
    (|(1 : ℚ) / 2 - 0| ≤ 2 * pi32 ∧
      angle_diff_code (1 / 2) 0 = wrap_to_pi (1 / 2 - 0)) ∧
    (¬ ((Enemy.new_rat 5 0).distance_to (fun _ => 5) (⟨0, 0, 0⟩ : Player).x
        (⟨0, 0, 0⟩ : Player).y < (⟨3, 0, 0, '#', Side.Vertical⟩ : Ray).distance) ∧
      (apply_shot (fun _ => 5) (fun _ _ => 0) ⟨0, 0, 0⟩
          ⟨3, 0, 0, '#', Side.Vertical⟩ 5 [Enemy.new_rat 5 0]).1[0]? =
        ([Enemy.new_rat 5 0] : List Enemy)[0]?) ∧
    (cast_single_ray (fun _ => 1) (fun _ => 0) ⟨1/2, 1/2, 0⟩ [[' ', '#']] 1 =
        some ⟨1/2, 1, 1/2, '#', Side.Vertical⟩ ∧
      shoot (fun _ => 1) (fun _ => 0) (fun _ => 5) (fun _ _ => 0)
          ⟨1/2, 1/2, 0⟩ [[' ', '#']] 1 5 [Enemy.new_rat 5 0] =
        apply_shot (fun _ => 5) (fun _ _ => 0) ⟨1/2, 1/2, 0⟩
          ⟨1/2, 1, 1/2, '#', Side.Vertical⟩ 5 [Enemy.new_rat 5 0]) := by
  refine ⟨⟨by decide, ?_⟩, ⟨by decide, ?_⟩, ⟨by decide, ?_⟩, ⟨by decide, ?_⟩,
    ⟨by decide, ?_⟩⟩
  · exact (shot_resolution_amended (fun _ => 1) (fun _ => 0) (fun _ => 5)
      (fun _ _ => 0) ⟨0, 0, 0⟩ [] 1 ⟨100, 0, 0, '#', Side.Vertical⟩ 5
      [Enemy.new_rat 5 0] 0 1 (1/2) 0 (Enemy.new_rat 5 0)).1 (by decide)
  · exact (shot_resolution_amended (fun _ => 1) (fun _ => 0) (fun _ => 5)
      (fun _ _ => 0) ⟨0, 0, 0⟩ [] 1 ⟨100, 0, 0, '#', Side.Vertical⟩ 5
      [Enemy.new_rat 5 0] 0 1 (1/2) 0 (Enemy.new_rat 5 0)).2.1 (by decide)
      (by decide)
  · exact (shot_resolution_amended (fun _ => 1) (fun _ => 0) (fun _ => 5)
      (fun _ _ => 0) ⟨0, 0, 0⟩ [] 1 ⟨100, 0, 0, '#', Side.Vertical⟩ 5
      [Enemy.new_rat 5 0] 0 1 (1/2) 0 (Enemy.new_rat 5 0)).2.2.2.1 (by decide)
  · exact (shot_resolution_amended (fun _ => 1) (fun _ => 0) (fun _ => 5)
      (fun _ _ => 0) ⟨0, 0, 0⟩ [] 1 ⟨3, 0, 0, '#', Side.Vertical⟩ 5
      [Enemy.new_rat 5 0] 0 1 (1/2) 0 (Enemy.new_rat 5 0)).2.2.2.2.1
      (by decide) (by decide)
  · exact (shot_resolution_amended (fun _ => 1) (fun _ => 0) (fun _ => 5)
      (fun _ _ => 0) ⟨1/2, 1/2, 0⟩ [[' ', '#']] 1
      ⟨1/2, 1, 1/2, '#', Side.Vertical⟩ 5 [Enemy.new_rat 5 0] 0 1 (1/2) 0
      (Enemy.new_rat 5 0)).2.2.2.2.2.2 (by decide)

theorem dda_loop_east (maze : Maze) (dflt : Char) (my0 : ℤ) (w : ℕ)
    (sdy0 : ℚ) (hmy0 : 0 ≤ my0) (hlen : my0.toNat < maze.len)
    (hww : w < maze.width) (hwall : maze.cellD dflt my0.toNat w ≠ ' ') :
    ∀ (fuel : ℕ) (mx : ℤ) (sdx : ℚ), 0 ≤ mx → mx.toNat < w →
      w - mx.toNat ≤ fuel →
      sdx + ((w : ℚ) - (mx : ℚ) - 1) < sdy0 →
      (∀ j : ℕ, mx.toNat < j → j < w →
        maze.cellD dflt my0.toNat j = ' ') →
      (dda_loop maze dflt 1 1 1 f32_max fuel sdx sdy0 mx my0).1 =
        some ((w : ℤ), my0, Side.Vertical) := by
  intro fuel
  induction fuel with
  | zero =>
    intro mx sdx hmx hmxw hfuel hsep hopen
    omega
  | succ k ih =>
    intro mx sdx hmx hmxw hfuel hsep hopen
    have hge : ((0 : ℚ)) ≤ (w : ℚ) - (mx : ℚ) - 1 := by
      have : (mx : ℤ) + 1 ≤ (w : ℤ) := by omega
      have h2 : ((mx : ℤ) : ℚ) + 1 ≤ ((w : ℤ) : ℚ) := by exact_mod_cast this
      push_cast at h2 ⊢
      linarith
    have hstep : sdx < sdy0 := by linarith
    unfold dda_loop
    rw [if_pos hstep]
    dsimp only
    rw [if_neg (by omega : ¬ (my0 < 0 ∨ mx + 1 < 0))]
    rw [if_neg (by omega : ¬ my0.toNat ≥ maze.len)]
    rw [if_neg (by omega : ¬ (mx + 1).toNat ≥ maze.width)]
    by_cases hat : (mx + 1).toNat = w
    · rw [if_pos (by rw [hat]; exact hwall)]
      have : mx + 1 = (w : ℤ) := by omega
      rw [this]
    · have hlt : (mx + 1).toNat < w := by omega
      rw [if_neg (by
        have := hopen (mx + 1).toNat (by omega) hlt
        simp [this])]
      cases hrec : dda_loop maze dflt 1 1 1 f32_max k (sdx + 1) sdy0 (mx + 1) my0 with
      | mk res n =>
        dsimp only
        have := ih (mx + 1) (sdx + 1) (by omega) hlt (by omega)
          (by push_cast; linarith)
          (fun j hj1 hj2 => hopen j (by omega) hj2)
        rw [hrec] at this
        exact this

set_option maxHeartbeats 1000000 in
/-- Claim C7: perpendicular distance equals Euclidean distance for an
axis-aligned ray — casting due east (direction (1, 0), the exact f32 value of
(cos 0, sin 0)) from a non-negative in-grid position toward the first wall `w`
on the player's row, `cast_ray` hits that wall with `side = Vertical`,
reports distance `w * block_size - pos_x` (the straight-line distance to the
wall face), and returns the hit point `pos + dir * distance`, whose Euclidean
offset from the player squares to the distance squared (no fisheye skew). -/
theorem axis_aligned_ray_distance (dflt : Char) (maze : Maze)
    (block_size : ℕ) (pos_x pos_y : ℚ) (w : ℕ) (hb : 0 < block_size)
    (hx : 0 ≤ pos_x) (hy : 0 ≤ pos_y)
    (hlen : (rat_trunc (pos_y / (block_size : ℚ))).toNat < maze.len)
    (hww : w < maze.width)
    (hwgt : (rat_trunc (pos_x / (block_size : ℚ))).toNat < w)
    (hfuel : w - (rat_trunc (pos_x / (block_size : ℚ))).toNat ≤ 100)
    (hwall : maze.cellD dflt (rat_trunc (pos_y / (block_size : ℚ))).toNat w ≠ ' ')
    (hopen : ∀ j : ℕ, j < w → (rat_trunc (pos_x / (block_size : ℚ))).toNat < j →
      maze.cellD dflt (rat_trunc (pos_y / (block_size : ℚ))).toNat j = ' ')
    (hsep : ((rat_trunc (pos_x / (block_size : ℚ)) : ℚ) + 1 -
        pos_x / (block_size : ℚ)) + ((w : ℚ) -
        (rat_trunc (pos_x / (block_size : ℚ)) : ℚ) - 1) <
      ((rat_trunc (pos_y / (block_size : ℚ)) : ℚ) + 1 -
        pos_y / (block_size : ℚ)) * f32_max) :
    cast_ray_dir dflt maze block_size pos_x pos_y 1 0 =
      some ⟨(w : ℚ) * (block_size : ℚ) - pos_x,
        pos_x + ((w : ℚ) * (block_size : ℚ) - pos_x), pos_y,
        maze.cellD dflt (rat_trunc (pos_y / (block_size : ℚ))).toNat w,
        Side.Vertical⟩ ∧
      0 ≤ (w : ℚ) * (block_size : ℚ) - pos_x ∧
      ((pos_x + ((w : ℚ) * (block_size : ℚ) - pos_x)) - pos_x) ^ 2 +
          (pos_y - pos_y) ^ 2 =
        ((w : ℚ) * (block_size : ℚ) - pos_x) ^ 2 := by
  have hbq : (0 : ℚ) < (block_size : ℚ) := by exact_mod_cast hb
  have hbne : ((block_size : ℕ) : ℚ) ≠ 0 := ne_of_gt hbq
  have hxb : (0 : ℚ) ≤ pos_x / (block_size : ℚ) := div_nonneg hx (le_of_lt hbq)
  have hyb : (0 : ℚ) ≤ pos_y / (block_size : ℚ) := div_nonneg hy (le_of_lt hbq)
  have hmx0 : 0 ≤ rat_trunc (pos_x / (block_size : ℚ)) := by
    rw [rat_trunc_nonneg _ hxb]
    exact Int.floor_nonneg.mpr hxb
  have hmy0 : 0 ≤ rat_trunc (pos_y / (block_size : ℚ)) := by
    rw [rat_trunc_nonneg _ hyb]
    exact Int.floor_nonneg.mpr hyb
  have hdist0 : 0 ≤ (w : ℚ) * (block_size : ℚ) - pos_x := by
    have hfloor : pos_x / (block_size : ℚ) <
        (rat_trunc (pos_x / (block_size : ℚ)) : ℚ) + 1 := by
      rw [rat_trunc_nonneg _ hxb]
      exact Int.lt_floor_add_one _
    have hWge : (rat_trunc (pos_x / (block_size : ℚ)) : ℚ) + 1 ≤ (w : ℚ) := by
      have : rat_trunc (pos_x / (block_size : ℚ)) + 1 ≤ (w : ℤ) := by omega
      exact_mod_cast this
    have : pos_x / (block_size : ℚ) < (w : ℚ) := lt_of_lt_of_le hfloor hWge
    have := (div_lt_iff hbq).mp this
    linarith
  have hloop : (cast_ray_setup dflt maze block_size pos_x pos_y 1 0).1 =
      some ((w : ℤ), rat_trunc (pos_y / (block_size : ℚ)), Side.Vertical) := by
    simp only [cast_ray_setup]
    norm_num
    exact dda_loop_east maze dflt (rat_trunc (pos_y / (block_size : ℚ))) w
      (((rat_trunc (pos_y / (block_size : ℚ)) : ℚ) + 1 -
        pos_y / (block_size : ℚ)) * f32_max) hmy0 hlen hww hwall 100
      (rat_trunc (pos_x / (block_size : ℚ)))
      ((rat_trunc (pos_x / (block_size : ℚ)) : ℚ) + 1 -
        pos_x / (block_size : ℚ)) hmx0 hwgt hfuel (by linarith)
      (fun j hj1 hj2 => hopen j hj2 hj1)
  refine ⟨?_, hdist0, by ring⟩
  unfold cast_ray_dir
  rw [hloop]
  dsimp only
  rw [Option.some_inj, Ray.mk.injEq]
  norm_num
  constructor
  · field_simp
  · field_simp

set_option maxRecDepth 1000000 in
set_option maxHeartbeats 1000000 in
/-- Witness for C7, the spec scenario A: a 10×10 bordered room with 64-unit
cells, player at its center (320, 320) facing east — the ray hits the east
border wall (column 9) with side Vertical at distance 9·64 − 320 = 256 and
hit point (576, 320). -/
theorem axis_aligned_ray_distance_witness :
    ((0 : ℕ) < 64 ∧
      (rat_trunc ((320 : ℚ) / (64 : ℚ))).toNat <
        Maze.len (List.replicate 10 '#' ::
          (List.replicate 8 ('#' :: (List.replicate 8 ' ' ++ ['#'])) ++
            [List.replicate 10 '#'])) ∧
      (9 : ℕ) < Maze.width (List.replicate 10 '#' ::
        (List.replicate 8 ('#' :: (List.replicate 8 ' ' ++ ['#'])) ++
          [List.replicate 10 '#'])) ∧
      Maze.cellD (List.replicate 10 '#' ::
          (List.replicate 8 ('#' :: (List.replicate 8 ' ' ++ ['#'])) ++
            [List.replicate 10 '#'])) '#'
        (rat_trunc ((320 : ℚ) / (64 : ℚ))).toNat 9 ≠ ' ' ∧
      (∀ j : ℕ, j < 9 → (rat_trunc ((320 : ℚ) / (64 : ℚ))).toNat < j →
        Maze.cellD (List.replicate 10 '#' ::
            (List.replicate 8 ('#' :: (List.replicate 8 ' ' ++ ['#'])) ++
              [List.replicate 10 '#'])) '#'
          (rat_trunc ((320 : ℚ) / (64 : ℚ))).toNat j = ' ')) ∧
    cast_ray_dir '#' (List.replicate 10 '#' ::
        (List.replicate 8 ('#' :: (List.replicate 8 ' ' ++ ['#'])) ++
          [List.replicate 10 '#'])) 64 320 320 1 0 =
      some ⟨(9 : ℚ) * (64 : ℚ) - 320, 320 + ((9 : ℚ) * (64 : ℚ) - 320), 320,
        Maze.cellD (List.replicate 10 '#' ::
            (List.replicate 8 ('#' :: (List.replicate 8 ' ' ++ ['#'])) ++
              [List.replicate 10 '#'])) '#'
          (rat_trunc ((320 : ℚ) / (64 : ℚ))).toNat 9,
        Side.Vertical⟩ := by
  refine ⟨⟨by decide, by decide, by decide, by decide, by decide⟩, ?_⟩
  exact (axis_aligned_ray_distance '#' (List.replicate 10 '#' ::
      (List.replicate 8 ('#' :: (List.replicate 8 ' ' ++ ['#'])) ++
        [List.replicate 10 '#'])) 64 320 320 9 (by decide) (by decide)
    (by decide) (by decide) (by decide) (by decide) (by decide) (by decide)
    (by decide) (by decide)).1

end Wolf
